import Mathlib

set_option maxRecDepth 8000

/-!
Verification of the Morton (Z-order) codec of `juno`
(`src/include/juno/math/morton.hpp`), shallowly embedded over `Nat`.

Machine integers (`uint32_t`, `uint64_t`) are modelled as `Nat` with explicit
`% 2^32` / `% 2^64` truncation exactly where the C++ code can overflow
(left shifts and narrowing casts).  The two build paths of the header are both
embedded:

* the BMI2 hardware path, as the generic scatter/gather semantics `pdep` /
  `pext` of the `_pdep_u32/u64` and `_pext_u32/u64` intrinsics, applied to the
  `bmi_*` mask constants (including the `static_cast<U>` truncation of the
  64-bit literals for `U = uint32_t`);
* the portable emulation path, as the literal shift/or/and and
  shift/xor/and chains `pdep0x...` / `pext0x...`.
-/

--==============================================================================
-- Generic BMI2 scatter/gather semantics (the hardware path's `pdep`/`pext`)
--==============================================================================

/-- Semantics of the `pdep` (parallel bit deposit) instruction on a `w`-bit
register: successive low bits of `src` are deposited at the positions of the
set bits of `mask`, all other result bits are zero.  `w` is the register
width (32 or 64). -/
def pdep : Nat → Nat → Nat → Nat
  | 0, _, _ => 0
  | w + 1, src, mask =>
    if mask % 2 = 1 then src % 2 + 2 * pdep w (src / 2) (mask / 2)
    else 2 * pdep w src (mask / 2)

/-- Semantics of the `pext` (parallel bit extract) instruction on a `w`-bit
register: the bits of `src` at the positions of the set bits of `mask` are
packed contiguously into the low bits of the result. -/
def pext : Nat → Nat → Nat → Nat
  | 0, _, _ => 0
  | w + 1, src, mask =>
    if mask % 2 = 1 then src % 2 + 2 * pext w (src / 2) (mask / 2)
    else pext w (src / 2) (mask / 2)

/-- Number of set bits among the low `w` bits of `mask` (the number of source
bits consumed by `pdep`, and of result bits produced by `pext`). -/
def maskCount : Nat → Nat → Nat
  | 0, _ => 0
  | w + 1, mask => mask % 2 + maskCount w (mask / 2)

--==============================================================================
-- Maximum coordinate values (morton.hpp lines 55-59)
--==============================================================================

/-- `max_2d_morton_coord<uint32_t> = (U(1) << (4 * sizeof(U))) - 1` with
`sizeof(uint32_t) = 4`. -/
def max_2d_morton_coord32 : Nat := (1 <<< (4 * 4)) - 1

/-- `max_2d_morton_coord<uint64_t>` with `sizeof(uint64_t) = 8`. -/
def max_2d_morton_coord64 : Nat := (1 <<< (4 * 8)) - 1

/-- `max_3d_morton_coord<uint32_t> = (U(1) << (8 * sizeof(U) / 3)) - 1`. -/
def max_3d_morton_coord32 : Nat := (1 <<< (8 * 4 / 3)) - 1

/-- `max_3d_morton_coord<uint64_t>`. -/
def max_3d_morton_coord64 : Nat := (1 <<< (8 * 8 / 3)) - 1

--==============================================================================
-- BMI2-path mask constants (morton.hpp lines 98-111)
-- For `U = uint32_t` the 64-bit literal is truncated by `static_cast<U>`.
--==============================================================================

/-- `bmi_2d_x_mask<uint32_t> = static_cast<uint32_t>(0x5555555555555555)`. -/
def bmi_2d_x_mask32 : Nat := 0x5555555555555555 % 2 ^ 32

/-- `bmi_2d_y_mask<uint32_t> = static_cast<uint32_t>(0xAAAAAAAAAAAAAAAA)`. -/
def bmi_2d_y_mask32 : Nat := 0xAAAAAAAAAAAAAAAA % 2 ^ 32

/-- `bmi_3d_x_mask<uint32_t> = static_cast<uint32_t>(0x9249249249249249)`. -/
def bmi_3d_x_mask32 : Nat := 0x9249249249249249 % 2 ^ 32

/-- `bmi_3d_y_mask<uint32_t> = static_cast<uint32_t>(0x2492492492492492)`. -/
def bmi_3d_y_mask32 : Nat := 0x2492492492492492 % 2 ^ 32

/-- `bmi_3d_z_mask<uint32_t> = static_cast<uint32_t>(0x4924924924924924)`. -/
def bmi_3d_z_mask32 : Nat := 0x4924924924924924 % 2 ^ 32

/-- `bmi_2d_x_mask<uint64_t>`. -/
def bmi_2d_x_mask64 : Nat := 0x5555555555555555

/-- `bmi_2d_y_mask<uint64_t>`. -/
def bmi_2d_y_mask64 : Nat := 0xAAAAAAAAAAAAAAAA

/-- `bmi_3d_x_mask<uint64_t>`. -/
def bmi_3d_x_mask64 : Nat := 0x9249249249249249

/-- `bmi_3d_y_mask<uint64_t>`. -/
def bmi_3d_y_mask64 : Nat := 0x2492492492492492

/-- `bmi_3d_z_mask<uint64_t>`. -/
def bmi_3d_z_mask64 : Nat := 0x4924924924924924

--==============================================================================
-- Effective axis masks of the emulation path: the final deposit mask of each
-- `pdep0x...` chain (equivalently, the initial extract mask of the matching
-- `pext0x...` chain), and its shifts by the axis offset.
--==============================================================================

/-- Final mask of `pdep0x55555555` (= first mask of `pext0x55555555`):
the bits the 32-bit 2D emulation codec uses for the x axis. -/
def emu_2d_x_mask32 : Nat := 0x55555555

/-- x-axis mask shifted by 1: the bits used for the y axis (2D, 32-bit). -/
def emu_2d_y_mask32 : Nat := 0x55555555 <<< 1

/-- Final mask of `pdep0x5555555555555555`. -/
def emu_2d_x_mask64 : Nat := 0x5555555555555555

/-- y-axis bits of the 64-bit 2D emulation codec. -/
def emu_2d_y_mask64 : Nat := 0x5555555555555555 <<< 1

/-- Final mask of `pdep0x92492492` (= first mask of `pext0x92492492`). -/
def emu_3d_x_mask32 : Nat := 0x09249249

/-- y-axis bits of the 32-bit 3D emulation codec. -/
def emu_3d_y_mask32 : Nat := 0x09249249 <<< 1

/-- z-axis bits of the 32-bit 3D emulation codec. -/
def emu_3d_z_mask32 : Nat := 0x09249249 <<< 2

/-- Final mask of `pdep0x9249249249249249`. -/
def emu_3d_x_mask64 : Nat := 0x1249249249249249

/-- y-axis bits of the 64-bit 3D emulation codec. -/
def emu_3d_y_mask64 : Nat := 0x1249249249249249 <<< 1

/-- z-axis bits of the 64-bit 3D emulation codec. -/
def emu_3d_z_mask64 : Nat := 0x1249249249249249 <<< 2

--==============================================================================
-- BMI2 intrinsics emulation (morton.hpp lines 164-259).
-- Left shifts of `uint32_t`/`uint64_t` wrap, hence the explicit `% 2^32` /
-- `% 2^64` on each shifted value.
--==============================================================================

/-- Emulation of `pdep_u32(x, 0x55555555)` (morton.hpp lines 165-173). -/
def pdep0x55555555 (x : Nat) : Nat :=
  let x1 := (x ||| (x <<< 8) % 2 ^ 32) &&& 0x00ff00ff
  let x2 := (x1 ||| (x1 <<< 4) % 2 ^ 32) &&& 0x0f0f0f0f
  let x3 := (x2 ||| (x2 <<< 2) % 2 ^ 32) &&& 0x33333333
  let x4 := (x3 ||| (x3 <<< 1) % 2 ^ 32) &&& 0x55555555
  x4

/-- Emulation of `pdep_u64(x, 0x5555555555555555)` (morton.hpp lines 176-185). -/
def pdep0x5555555555555555 (x : Nat) : Nat :=
  let x1 := (x ||| (x <<< 16) % 2 ^ 64) &&& 0x0000ffff0000ffff
  let x2 := (x1 ||| (x1 <<< 8) % 2 ^ 64) &&& 0x00ff00ff00ff00ff
  let x3 := (x2 ||| (x2 <<< 4) % 2 ^ 64) &&& 0x0f0f0f0f0f0f0f0f
  let x4 := (x3 ||| (x3 <<< 2) % 2 ^ 64) &&& 0x3333333333333333
  let x5 := (x4 ||| (x4 <<< 1) % 2 ^ 64) &&& 0x5555555555555555
  x5

/-- Emulation of `pext_u32(x, 0x55555555)` (morton.hpp lines 188-197). -/
def pext0x55555555 (x : Nat) : Nat :=
  let x0 := x &&& 0x55555555
  let x1 := (x0 ^^^ x0 >>> 1) &&& 0x33333333
  let x2 := (x1 ^^^ x1 >>> 2) &&& 0x0f0f0f0f
  let x3 := (x2 ^^^ x2 >>> 4) &&& 0x00ff00ff
  let x4 := (x3 ^^^ x3 >>> 8) &&& 0x0000ffff
  x4

/-- Emulation of `pext_u64(x, 0x5555555555555555)` (morton.hpp lines 200-210). -/
def pext0x5555555555555555 (x : Nat) : Nat :=
  let x0 := x &&& 0x5555555555555555
  let x1 := (x0 ^^^ x0 >>> 1) &&& 0x3333333333333333
  let x2 := (x1 ^^^ x1 >>> 2) &&& 0x0f0f0f0f0f0f0f0f
  let x3 := (x2 ^^^ x2 >>> 4) &&& 0x00ff00ff00ff00ff
  let x4 := (x3 ^^^ x3 >>> 8) &&& 0x0000ffff0000ffff
  let x5 := (x4 ^^^ x4 >>> 16) &&& 0x00000000ffffffff
  x5

/-- Emulation of `pdep_u32(x, 0x92492492)` — actually the deposit with final
mask `0x09249249` (morton.hpp lines 213-221). -/
def pdep0x92492492 (x : Nat) : Nat :=
  let x1 := (x ||| (x <<< 16) % 2 ^ 32) &&& 0x030000ff
  let x2 := (x1 ||| (x1 <<< 8) % 2 ^ 32) &&& 0x0300f00f
  let x3 := (x2 ||| (x2 <<< 4) % 2 ^ 32) &&& 0x030c30c3
  let x4 := (x3 ||| (x3 <<< 2) % 2 ^ 32) &&& 0x09249249
  x4

/-- Emulation of `pdep_u64(x, 0x9249249249249249)` — deposit with final mask
`0x1249249249249249` (morton.hpp lines 224-234; the `ASSERT_ASSUME` on the
argument is a debug-build contract check, not part of the value semantics). -/
def pdep0x9249249249249249 (x : Nat) : Nat :=
  let x1 := (x ||| (x <<< 32) % 2 ^ 64) &&& 0x001f00000000ffff
  let x2 := (x1 ||| (x1 <<< 16) % 2 ^ 64) &&& 0x001f0000ff0000ff
  let x3 := (x2 ||| (x2 <<< 8) % 2 ^ 64) &&& 0x100f00f00f00f00f
  let x4 := (x3 ||| (x3 <<< 4) % 2 ^ 64) &&& 0x10c30c30c30c30c3
  let x5 := (x4 ||| (x4 <<< 2) % 2 ^ 64) &&& 0x1249249249249249
  x5

/-- Emulation of `pext_u32(x, 0x92492492)` — extract with mask `0x09249249`
(morton.hpp lines 237-246). -/
def pext0x92492492 (x : Nat) : Nat :=
  let x0 := x &&& 0x09249249
  let x1 := (x0 ^^^ x0 >>> 2) &&& 0x030c30c3
  let x2 := (x1 ^^^ x1 >>> 4) &&& 0x0300f00f
  let x3 := (x2 ^^^ x2 >>> 8) &&& 0x030000ff
  let x4 := (x3 ^^^ x3 >>> 16) &&& 0x000003ff
  x4

/-- Emulation of `pext_u64(x, 0x9249249249249249)` — extract with mask
`0x1249249249249249` (morton.hpp lines 249-259). -/
def pext0x9249249249249249 (x : Nat) : Nat :=
  let x0 := x &&& 0x1249249249249249
  let x1 := (x0 ^^^ x0 >>> 2) &&& 0x10c30c30c30c30c3
  let x2 := (x1 ^^^ x1 >>> 4) &&& 0x100f00f00f00f00f
  let x3 := (x2 ^^^ x2 >>> 8) &&& 0x001f0000ff0000ff
  let x4 := (x3 ^^^ x3 >>> 16) &&& 0x001f00000000ffff
  let x5 := (x4 ^^^ x4 >>> 32) &&& 0x00000000001fffff
  x5

--==============================================================================
-- Integer Morton codec, emulation path (morton.hpp lines 266-336)
--==============================================================================

/-- `mortonEncode(uint32_t, uint32_t)` (lines 266-272). -/
def mortonEncode32_2 (x y : Nat) : Nat :=
  pdep0x55555555 x ||| (pdep0x55555555 y <<< 1) % 2 ^ 32

/-- `mortonEncode(uint64_t, uint64_t)` (lines 275-281). -/
def mortonEncode64_2 (x y : Nat) : Nat :=
  pdep0x5555555555555555 x ||| (pdep0x5555555555555555 y <<< 1) % 2 ^ 64

/-- `mortonDecode(uint32_t, uint32_t&, uint32_t&)` (lines 284-289). -/
def mortonDecode32_2 (morton : Nat) : Nat × Nat :=
  (pext0x55555555 morton, pext0x55555555 (morton >>> 1))

/-- `mortonDecode(uint64_t, uint64_t&, uint64_t&)` (lines 292-297). -/
def mortonDecode64_2 (morton : Nat) : Nat × Nat :=
  (pext0x5555555555555555 morton, pext0x5555555555555555 (morton >>> 1))

/-- `mortonEncode(uint32_t, uint32_t, uint32_t)` (lines 300-307). -/
def mortonEncode32_3 (x y z : Nat) : Nat :=
  pdep0x92492492 x ||| (pdep0x92492492 y <<< 1) % 2 ^ 32 |||
    (pdep0x92492492 z <<< 2) % 2 ^ 32

/-- `mortonEncode(uint64_t, uint64_t, uint64_t)` (lines 310-318). -/
def mortonEncode64_3 (x y z : Nat) : Nat :=
  pdep0x9249249249249249 x ||| (pdep0x9249249249249249 y <<< 1) % 2 ^ 64 |||
    (pdep0x9249249249249249 z <<< 2) % 2 ^ 64

/-- `mortonDecode(uint32_t, uint32_t&, uint32_t&, uint32_t&)` (lines 321-327). -/
def mortonDecode32_3 (morton : Nat) : Nat × Nat × Nat :=
  (pext0x92492492 morton, pext0x92492492 (morton >>> 1),
    pext0x92492492 (morton >>> 2))

/-- `mortonDecode(uint64_t, uint64_t&, uint64_t&, uint64_t&)` (lines 330-336). -/
def mortonDecode64_3 (morton : Nat) : Nat × Nat × Nat :=
  (pext0x9249249249249249 morton, pext0x9249249249249249 (morton >>> 1),
    pext0x9249249249249249 (morton >>> 2))

--==============================================================================
-- Integer Morton codec, BMI2 hardware path (morton.hpp lines 118-156)
--==============================================================================

/-- BMI2-path `mortonEncode(uint32_t, uint32_t)` (lines 118-125). -/
def mortonEncodeBmi32_2 (x y : Nat) : Nat :=
  pdep 32 x bmi_2d_x_mask32 ||| pdep 32 y bmi_2d_y_mask32

/-- BMI2-path `mortonEncode(uint64_t, uint64_t)`. -/
def mortonEncodeBmi64_2 (x y : Nat) : Nat :=
  pdep 64 x bmi_2d_x_mask64 ||| pdep 64 y bmi_2d_y_mask64

/-- BMI2-path `mortonEncode(uint32_t, uint32_t, uint32_t)` (lines 128-137). -/
def mortonEncodeBmi32_3 (x y z : Nat) : Nat :=
  pdep 32 x bmi_3d_x_mask32 ||| pdep 32 y bmi_3d_y_mask32 |||
    pdep 32 z bmi_3d_z_mask32

/-- BMI2-path `mortonEncode(uint64_t, uint64_t, uint64_t)`. -/
def mortonEncodeBmi64_3 (x y z : Nat) : Nat :=
  pdep 64 x bmi_3d_x_mask64 ||| pdep 64 y bmi_3d_y_mask64 |||
    pdep 64 z bmi_3d_z_mask64

/-- BMI2-path `mortonDecode(uint32_t, uint32_t&, uint32_t&)` (lines 140-146). -/
def mortonDecodeBmi32_2 (morton : Nat) : Nat × Nat :=
  (pext 32 morton bmi_2d_x_mask32, pext 32 morton bmi_2d_y_mask32)

/-- BMI2-path `mortonDecode(uint64_t, uint64_t&, uint64_t&)`. -/
def mortonDecodeBmi64_2 (morton : Nat) : Nat × Nat :=
  (pext 64 morton bmi_2d_x_mask64, pext 64 morton bmi_2d_y_mask64)

/-- BMI2-path `mortonDecode(uint32_t, ...)` 3D (lines 149-156). -/
def mortonDecodeBmi32_3 (morton : Nat) : Nat × Nat × Nat :=
  (pext 32 morton bmi_3d_x_mask32, pext 32 morton bmi_3d_y_mask32,
    pext 32 morton bmi_3d_z_mask32)

/-- BMI2-path `mortonDecode(uint64_t, ...)` 3D. -/
def mortonDecodeBmi64_3 (morton : Nat) : Nat × Nat × Nat :=
  (pext 64 morton bmi_3d_x_mask64, pext 64 morton bmi_3d_y_mask64,
    pext 64 morton bmi_3d_z_mask64)

--==============================================================================
-- Compile-time admissibility of the floating-point overloads
-- (morton.hpp lines 344-402)
--==============================================================================

/-- Tag for the `std::floating_point` template parameter `T`. -/
inductive FloatTy where
  | f32 : FloatTy
  | f64 : FloatTy
deriving DecidableEq, Fintype

/-- Tag for the `std::unsigned_integral` template parameter `U`. -/
inductive UIntTy where
  | u32 : UIntTy
  | u64 : UIntTy
deriving DecidableEq, Fintype

/-- Whether the 2D floating-point `mortonEncode<U, T>` instantiation compiles:
its `static_assert(!(std::same_as<float, T> && std::same_as<uint64_t, U>))`
(morton.hpp lines 353-354) rejects exactly `T = float, U = uint64_t`. -/
def mortonEncode2FloatCompiles (u : UIntTy) (t : FloatTy) : Bool :=
  !(t = FloatTy.f32 && u = UIntTy.u64)

/-- Whether the 3D floating-point `mortonEncode<U, T>` instantiation compiles:
the 3D overload (morton.hpp lines 374-388) contains no `static_assert`, so
every combination of `U` and `T` is accepted. -/
def mortonEncode3FloatCompiles (_ : UIntTy) (_ : FloatTy) : Bool :=
  true

--==============================================================================
-- Bit-algebra helper lemmas
--==============================================================================

/-- Pointwise form of the subset fact `a &&& A = a`. -/
theorem sub_testBit {a A : Nat} (h : a &&& A = a) (i : Nat)
    (ha : a.testBit i = true) : A.testBit i = true := by
  have h2 : (a.testBit i && A.testBit i) = a.testBit i := by
    rw [← Nat.testBit_and, h]
  rw [ha] at h2
  simpa using h2

/-- Under a mask that kills the overlap of `a` and `b`, `|||` agrees with
`^^^`. -/
theorem or_and_eq_xor_and {a b m : Nat} (h : a &&& b &&& m = 0) :
    (a ||| b) &&& m = (a ^^^ b) &&& m := by
  apply Nat.eq_of_testBit_eq
  intro i
  have h0 : (a &&& b &&& m).testBit i = false := by rw [h]; simp
  simp only [Nat.testBit_and, Nat.testBit_or, Nat.testBit_xor] at h0 ⊢
  revert h0
  cases a.testBit i <;> cases b.testBit i <;> cases m.testBit i <;> decide

/-- A register-width wrap `% 2^k` is invisible below a mask `m < 2^k`. -/
theorem mod_and_of_lt {a m k : Nat} (hm : m < 2 ^ k) :
    (a % 2 ^ k) &&& m = a &&& m := by
  rw [← Nat.and_pow_two_sub_one_eq_mod, Nat.and_assoc,
    Nat.and_comm (2 ^ k - 1) m, Nat.and_pow_two_sub_one_of_lt_two_pow hm]

theorem shiftLeft_and_distrib (a b s : Nat) :
    (a &&& b) <<< s = (a <<< s) &&& (b <<< s) := by
  apply Nat.eq_of_testBit_eq
  intro i
  simp only [Nat.testBit_shiftLeft, Nat.testBit_and]
  cases decide (i ≥ s) <;> cases a.testBit (i - s) <;>
    cases b.testBit (i - s) <;> rfl

theorem shiftRight_xor_distrib (a b s : Nat) :
    (a ^^^ b) >>> s = (a >>> s) ^^^ (b >>> s) := by
  apply Nat.eq_of_testBit_eq
  intro i
  simp [Nat.testBit_shiftRight, Nat.testBit_xor]

theorem shiftLeft_xor_distrib (a b s : Nat) :
    (a ^^^ b) <<< s = (a <<< s) ^^^ (b <<< s) := by
  apply Nat.eq_of_testBit_eq
  intro i
  simp only [Nat.testBit_shiftLeft, Nat.testBit_xor]
  cases decide (i ≥ s) <;> cases a.testBit (i - s) <;>
    cases b.testBit (i - s) <;> rfl

theorem addBit_mod2 {a : Nat} (u : Nat) (ha : a ≤ 1) : (a + 2 * u) % 2 = a := by
  omega

theorem addBit_div2 {a : Nat} (u : Nat) (ha : a ≤ 1) : (a + 2 * u) / 2 = u := by
  omega

theorem addBit_testBit_zero {a : Nat} (u : Nat) (ha : a ≤ 1) :
    (a + 2 * u).testBit 0 = decide (a = 1) := by
  rw [Nat.testBit_zero, addBit_mod2 u ha]

theorem addBit_testBit_succ {a : Nat} (u : Nat) (ha : a ≤ 1) (i : Nat) :
    (a + 2 * u).testBit (i + 1) = u.testBit i := by
  rw [Nat.testBit_add_one, addBit_div2 u ha]

/-- `^^^` acts independently on the low bit and the rest. -/
theorem addBit_xor {a b : Nat} (u v : Nat) (ha : a ≤ 1) (hb : b ≤ 1) :
    (a + 2 * u) ^^^ (b + 2 * v) = (a ^^^ b) + 2 * (u ^^^ v) := by
  have hab : a ^^^ b ≤ 1 := by
    interval_cases a <;> interval_cases b <;> decide
  apply Nat.eq_of_testBit_eq
  intro i
  cases i with
  | zero =>
    rw [Nat.testBit_xor, addBit_testBit_zero u ha, addBit_testBit_zero v hb,
      addBit_testBit_zero (u ^^^ v) hab]
    interval_cases a <;> interval_cases b <;> decide
  | succ j =>
    rw [Nat.testBit_xor, addBit_testBit_succ u ha, addBit_testBit_succ v hb,
      addBit_testBit_succ (u ^^^ v) hab, Nat.testBit_xor]

/-- `&&&` acts independently on the low bit and the rest. -/
theorem addBit_and {a b : Nat} (u v : Nat) (ha : a ≤ 1) (hb : b ≤ 1) :
    (a + 2 * u) &&& (b + 2 * v) = (a &&& b) + 2 * (u &&& v) := by
  have hab : a &&& b ≤ 1 := by
    interval_cases a <;> interval_cases b <;> decide
  apply Nat.eq_of_testBit_eq
  intro i
  cases i with
  | zero =>
    rw [Nat.testBit_and, addBit_testBit_zero u ha, addBit_testBit_zero v hb,
      addBit_testBit_zero (u &&& v) hab]
    interval_cases a <;> interval_cases b <;> decide
  | succ j =>
    rw [Nat.testBit_and, addBit_testBit_succ u ha, addBit_testBit_succ v hb,
      addBit_testBit_succ (u &&& v) hab, Nat.testBit_and]

theorem bit_decomp (n : Nat) : n % 2 + 2 * (n / 2) = n := by omega

theorem mod_two_pow_succ (x k : Nat) :
    x % 2 ^ (k + 1) = x % 2 + 2 * (x / 2 % 2 ^ k) := by
  rw [Nat.pow_succ', Nat.mod_mul]

theorem xor_mod_two (a b : Nat) : (a ^^^ b) % 2 = a % 2 ^^^ b % 2 := by
  rw [← Nat.and_one_is_mod, ← Nat.and_one_is_mod a, ← Nat.and_one_is_mod b,
    Nat.and_xor_distrib_right]

theorem and_mod_two (a b : Nat) : (a &&& b) % 2 = a % 2 &&& b % 2 := by
  have h3 := Nat.and_mod_two_eq_one (a := a) (b := b)
  have h5 : (a &&& b) % 2 = 1 ∨ (a &&& b) % 2 = 0 := by omega
  rcases Nat.mod_two_eq_zero_or_one a with h1 | h1 <;>
    rcases Nat.mod_two_eq_zero_or_one b with h2 | h2 <;> rw [h1, h2]
  · rcases h5 with h | h
    · rcases h3.mp h with ⟨x1, x2⟩
      omega
    · rw [h]
      decide
  · rcases h5 with h | h
    · rcases h3.mp h with ⟨x1, x2⟩
      omega
    · rw [h]
      decide
  · rcases h5 with h | h
    · rcases h3.mp h with ⟨x1, x2⟩
      omega
    · rw [h]
      decide
  · exact h3.mpr ⟨h1, h2⟩

theorem two_mul_xor (u v : Nat) : 2 * u ^^^ 2 * v = 2 * (u ^^^ v) := by
  have h := addBit_xor (a := 0) (b := 0) u v (by omega) (by omega)
  simpa using h

--==============================================================================
-- Theory of the generic `pdep` / `pext` semantics
--==============================================================================

theorem pdep_mask_zero : ∀ w s, pdep w s 0 = 0
  | 0, _ => rfl
  | w + 1, s => by simp [pdep, pdep_mask_zero w]

theorem pext_mask_zero : ∀ w s, pext w s 0 = 0
  | 0, _ => rfl
  | w + 1, s => by simp [pext, pext_mask_zero w]

/-- Extra fuel beyond the width of the mask is irrelevant for `pdep`. -/
theorem pdep_fuel : ∀ w k s m, m < 2 ^ w → pdep (w + k) s m = pdep w s m
  | 0, k, s, m, hm => by
    have h0 : m = 0 := by
      have h1 : (2 : Nat) ^ 0 = 1 := by norm_num
      omega
    subst h0
    rw [pdep_mask_zero, pdep_mask_zero]
  | w + 1, k, s, m, hm => by
    rw [Nat.pow_succ] at hm
    have h2 : m / 2 < 2 ^ w := by omega
    rw [show w + 1 + k = (w + k) + 1 by omega]
    simp only [pdep]
    split
    · rw [pdep_fuel w k _ _ h2]
    · rw [pdep_fuel w k _ _ h2]

/-- Extra fuel beyond the width of the mask is irrelevant for `pext`. -/
theorem pext_fuel : ∀ w k s m, m < 2 ^ w → pext (w + k) s m = pext w s m
  | 0, k, s, m, hm => by
    have h0 : m = 0 := by
      have h1 : (2 : Nat) ^ 0 = 1 := by norm_num
      omega
    subst h0
    rw [pext_mask_zero, pext_mask_zero]
  | w + 1, k, s, m, hm => by
    rw [Nat.pow_succ] at hm
    have h2 : m / 2 < 2 ^ w := by omega
    rw [show w + 1 + k = (w + k) + 1 by omega]
    simp only [pext]
    split
    · rw [pext_fuel w k _ _ h2]
    · rw [pext_fuel w k _ _ h2]

/-- `pdep` is linear over `^^^` in its source argument. -/
theorem pdep_xor : ∀ w a b m, pdep w (a ^^^ b) m = pdep w a m ^^^ pdep w b m
  | 0, _, _, _ => by simp [pdep]
  | w + 1, a, b, m => by
    simp only [pdep]
    by_cases h : m % 2 = 1
    · simp only [h, if_true]
      rw [Nat.xor_div_two, pdep_xor w (a / 2) (b / 2) (m / 2), xor_mod_two,
        addBit_xor _ _ (by omega) (by omega)]
    · simp only [h, if_false]
      rw [pdep_xor w a b (m / 2), two_mul_xor]

/-- `pext` is linear over `^^^` in its source argument. -/
theorem pext_xor : ∀ w a b m, pext w (a ^^^ b) m = pext w a m ^^^ pext w b m
  | 0, _, _, _ => by simp [pext]
  | w + 1, a, b, m => by
    simp only [pext]
    by_cases h : m % 2 = 1
    · simp only [h, if_true]
      rw [Nat.xor_div_two, pext_xor w (a / 2) (b / 2) (m / 2), xor_mod_two,
        addBit_xor _ _ (by omega) (by omega)]
    · simp only [h, if_false]
      rw [Nat.xor_div_two, pext_xor w (a / 2) (b / 2) (m / 2)]

/-- Gathering after scattering recovers the source modulo the mask
popcount. -/
theorem pext_pdep : ∀ w s m, pext w (pdep w s m) m = s % 2 ^ maskCount w m
  | 0, s, m => by simp [pdep, pext, maskCount, Nat.mod_one]
  | w + 1, s, m => by
    by_cases h : m % 2 = 1
    · have hd : pdep (w + 1) s m = s % 2 + 2 * pdep w (s / 2) (m / 2) := by
        simp [pdep, h]
      have hp : pext (w + 1) (s % 2 + 2 * pdep w (s / 2) (m / 2)) m =
          (s % 2 + 2 * pdep w (s / 2) (m / 2)) % 2 +
            2 * pext w ((s % 2 + 2 * pdep w (s / 2) (m / 2)) / 2) (m / 2) := by
        simp [pext, h]
      rw [hd, hp, addBit_mod2 _ (by omega), addBit_div2 _ (by omega),
        pext_pdep w (s / 2) (m / 2)]
      have hc : maskCount (w + 1) m = maskCount w (m / 2) + 1 := by
        simp [maskCount, h]
        omega
      rw [hc, mod_two_pow_succ]
    · have h0 : m % 2 = 0 := by omega
      have hd : pdep (w + 1) s m = 2 * pdep w s (m / 2) := by
        simp [pdep, h]
      have hp : pext (w + 1) (2 * pdep w s (m / 2)) m =
          pext w (2 * pdep w s (m / 2) / 2) (m / 2) := by
        simp [pext, h]
      have hdiv : 2 * pdep w s (m / 2) / 2 = pdep w s (m / 2) := by omega
      have hc : maskCount (w + 1) m = maskCount w (m / 2) := by
        simp [maskCount, h0]
      rw [hd, hp, hdiv, pext_pdep w s (m / 2), hc]

/-- Scattering after gathering recovers the masked, width-truncated source. -/
theorem pdep_pext : ∀ w s m, pdep w (pext w s m) m = (s &&& m) % 2 ^ w
  | 0, s, m => by simp [pdep, pext, Nat.mod_one]
  | w + 1, s, m => by
    by_cases h : m % 2 = 1
    · have he : pext (w + 1) s m = s % 2 + 2 * pext w (s / 2) (m / 2) := by
        simp [pext, h]
      have hd : pdep (w + 1) (s % 2 + 2 * pext w (s / 2) (m / 2)) m =
          (s % 2 + 2 * pext w (s / 2) (m / 2)) % 2 +
            2 * pdep w ((s % 2 + 2 * pext w (s / 2) (m / 2)) / 2) (m / 2) := by
        simp [pdep, h]
      rw [he, hd, addBit_mod2 _ (by omega), addBit_div2 _ (by omega),
        pdep_pext w (s / 2) (m / 2), mod_two_pow_succ, Nat.and_div_two,
        and_mod_two, h]
      have : s % 2 &&& 1 = s % 2 := by
        rw [Nat.and_one_is_mod]
        omega
      rw [this]
    · have h0 : m % 2 = 0 := by omega
      have he : pext (w + 1) s m = pext w (s / 2) (m / 2) := by
        simp [pext, h]
      have hd : pdep (w + 1) (pext w (s / 2) (m / 2)) m =
          2 * pdep w (pext w (s / 2) (m / 2)) (m / 2) := by
        simp [pdep, h]
      rw [he, hd, pdep_pext w (s / 2) (m / 2), mod_two_pow_succ,
        Nat.and_div_two, and_mod_two, h0]
      have : s % 2 &&& 0 = 0 := Nat.and_zero _
      rw [this]
      omega

/-- The result of `pdep` lies below `2 ^ w`. -/
theorem pdep_lt : ∀ w s m, pdep w s m < 2 ^ w
  | 0, _, _ => by simp [pdep]
  | w + 1, s, m => by
    have h1 := pdep_lt w (s / 2) (m / 2)
    have h2 := pdep_lt w s (m / 2)
    have h3 : (2 : Nat) ^ (w + 1) = 2 ^ w * 2 := by rw [Nat.pow_succ]
    simp only [pdep]
    split <;> omega

/-- `pext` only looks at the source bits below the mask. -/
theorem pext_and_mask : ∀ w s m, pext w (s &&& m) m = pext w s m
  | 0, _, _ => rfl
  | w + 1, s, m => by
    simp only [pext]
    by_cases h : m % 2 = 1
    · simp only [h, if_true]
      rw [and_mod_two, h, Nat.and_div_two, pext_and_mask w (s / 2) (m / 2)]
      have : s % 2 &&& 1 = s % 2 := by
        rw [Nat.and_one_is_mod]
        omega
      rw [this]
    · simp only [h, if_false]
      rw [Nat.and_div_two, pext_and_mask w (s / 2) (m / 2)]

/-- The result of `pdep` has bits only inside the mask. -/
theorem pdep_and_mask : ∀ w s m, pdep w s m &&& m = pdep w s m
  | 0, _, m => by simp [pdep]
  | w + 1, s, m => by
    by_cases h : m % 2 = 1
    · have hd : pdep (w + 1) s m = s % 2 + 2 * pdep w (s / 2) (m / 2) := by
        simp [pdep, h]
      calc pdep (w + 1) s m &&& m
          = (s % 2 + 2 * pdep w (s / 2) (m / 2)) &&&
            (m % 2 + 2 * (m / 2)) := by rw [bit_decomp, hd]
        _ = (s % 2 &&& m % 2) +
            2 * (pdep w (s / 2) (m / 2) &&& m / 2) := by
              rw [addBit_and _ _ (by omega) (by omega)]
        _ = s % 2 + 2 * pdep w (s / 2) (m / 2) := by
              rw [pdep_and_mask w (s / 2) (m / 2), h]
              have : s % 2 &&& 1 = s % 2 := by
                rw [Nat.and_one_is_mod]
                omega
              rw [this]
        _ = pdep (w + 1) s m := hd.symm
    · have hd : pdep (w + 1) s m = 2 * pdep w s (m / 2) := by
        simp [pdep, h]
      have h0 : m % 2 = 0 := by omega
      calc pdep (w + 1) s m &&& m
          = (0 + 2 * pdep w s (m / 2)) &&& (m % 2 + 2 * (m / 2)) := by
            rw [bit_decomp, hd, Nat.zero_add]
        _ = (0 &&& m % 2) + 2 * (pdep w s (m / 2) &&& m / 2) := by
            rw [addBit_and _ _ (by omega) (by omega)]
        _ = 2 * pdep w s (m / 2) := by
            rw [pdep_and_mask w s (m / 2), Nat.zero_and, Nat.zero_add]
        _ = pdep (w + 1) s m := hd.symm

/-- A disjoint `|||`-contribution is invisible to `pext`. -/
theorem pext_or_right {w A B m : Nat} (h : B &&& m = 0) :
    pext w (A ||| B) m = pext w A m := by
  rw [← pext_and_mask w (A ||| B) m, Nat.and_distrib_right, h, Nat.or_zero,
    pext_and_mask]

theorem pext_or_left {w A B m : Nat} (h : A &&& m = 0) :
    pext w (A ||| B) m = pext w B m := by
  rw [Nat.or_comm]
  exact pext_or_right h

/-- Doubling the mask shifts the `pdep` result. -/
theorem pdep_mask_double (w s m : Nat) :
    pdep (w + 1) s (2 * m) = 2 * pdep w s m := by
  have h0 : 2 * m % 2 = 0 := Nat.mul_mod_right 2 m
  have h1 : 2 * m / 2 = m := by omega
  simp [pdep, h0, h1]

/-- Doubling the mask makes `pext` look at the shifted source. -/
theorem pext_mask_double (w s m : Nat) :
    pext (w + 1) s (2 * m) = pext w (s / 2) m := by
  have h0 : 2 * m % 2 = 0 := Nat.mul_mod_right 2 m
  have h1 : 2 * m / 2 = m := by omega
  simp [pext, h0, h1]

--==============================================================================
-- Equality of xor-linear functions from agreement on the bit basis
--==============================================================================

/-- Disjoint `|||` is `^^^`: special case of splitting off the top bit. -/
theorem two_pow_or_eq_xor {n r : Nat} (h : r < 2 ^ n) :
    2 ^ n ||| r = 2 ^ n ^^^ r := by
  apply Nat.eq_of_testBit_eq
  intro i
  simp only [Nat.testBit_or, Nat.testBit_xor, Nat.testBit_two_pow]
  by_cases hin : n = i
  · subst hin
    rw [Nat.testBit_lt_two_pow h]
    simp
  · simp [hin]

theorem two_pow_add_eq_xor {n r : Nat} (h : r < 2 ^ n) :
    2 ^ n + r = 2 ^ n ^^^ r := by
  have hor := Nat.mul_add_lt_is_or h 1
  rw [Nat.mul_one] at hor
  rw [hor, two_pow_or_eq_xor h]

/-- Two functions that are linear over `^^^` and agree on the powers of two
below `2 ^ n` agree everywhere below `2 ^ n`. -/
theorem linEq {f g : Nat → Nat}
    (hf : ∀ a b, f (a ^^^ b) = f a ^^^ f b)
    (hg : ∀ a b, g (a ^^^ b) = g a ^^^ g b) :
    ∀ n, (∀ j, j < n → f (2 ^ j) = g (2 ^ j)) → ∀ x, x < 2 ^ n → f x = g x := by
  have hf0 : f 0 = 0 := by
    have h := hf 0 0
    simp only [Nat.zero_xor] at h
    have h2 := Nat.xor_self (f 0)
    omega
  have hg0 : g 0 = 0 := by
    have h := hg 0 0
    simp only [Nat.zero_xor] at h
    have h2 := Nat.xor_self (g 0)
    omega
  intro n
  induction n with
  | zero =>
    intro _ x hx
    have h1 : (2 : Nat) ^ 0 = 1 := by norm_num
    have h0 : x = 0 := by omega
    subst h0
    rw [hf0, hg0]
  | succ n ih =>
    intro hbase x hx
    by_cases hxn : x < 2 ^ n
    · exact ih (fun j hj => hbase j (by omega)) x hxn
    · have hle : 2 ^ n ≤ x := by omega
      have h2 : (2 : Nat) ^ (n + 1) = 2 ^ n * 2 := by rw [Nat.pow_succ]
      have h1 : x - 2 ^ n < 2 ^ n := by omega
      have hdecomp : x = 2 ^ n ^^^ (x - 2 ^ n) := by
        rw [← two_pow_add_eq_xor h1]
        omega
      rw [hdecomp, hf, hg, hbase n (by omega),
        ih (fun j hj => hbase j (by omega)) (x - 2 ^ n) h1]

--==============================================================================
-- Step lemmas for the emulation chains
--==============================================================================

/-- A deposit step `(v | (v << s)) & m` (with its register wrap) equals the
xor-form step, provided `v` lies inside a domain `D` whose overlap with its
own shift is killed by `m`. -/
theorem orStep_eq {v D s m k : Nat} (hv : v &&& D = v) (hm : m < 2 ^ k)
    (hside : D &&& D <<< s &&& m = 0) :
    (v ||| (v <<< s) % 2 ^ k) &&& m = (v ^^^ v <<< s) &&& m := by
  have hsub : v <<< s &&& D <<< s = v <<< s := by
    rw [← shiftLeft_and_distrib, hv]
  have hz : v &&& v <<< s &&& m = 0 := by
    apply Nat.eq_of_testBit_eq
    intro i
    have h0 : (D &&& D <<< s &&& m).testBit i = false := by rw [hside]; simp
    simp only [Nat.testBit_and, Nat.zero_testBit] at h0 ⊢
    by_cases hvi : v.testBit i
    · by_cases hsi : (v <<< s).testBit i
      · rw [sub_testBit hv i hvi, sub_testBit hsub i hsi] at h0
        simp only [Bool.true_and] at h0
        simp [hvi, hsi, h0]
      · simp [hsi]
    · simp [hvi]
  have h1 : (v ||| (v <<< s) % 2 ^ k) &&& m = (v ||| v <<< s) &&& m := by
    rw [Nat.and_distrib_right, Nat.and_distrib_right, mod_and_of_lt hm]
  rw [h1]
  exact or_and_eq_xor_and hz

/-- An xor-form deposit step is linear over `^^^`. -/
theorem xorStepL (s m a b : Nat) :
    ((a ^^^ b) ^^^ (a ^^^ b) <<< s) &&& m =
      ((a ^^^ a <<< s) &&& m) ^^^ ((b ^^^ b <<< s) &&& m) := by
  rw [← Nat.and_xor_distrib_right]
  congr 1
  apply Nat.eq_of_testBit_eq
  intro i
  simp only [Nat.testBit_xor, Nat.testBit_shiftLeft]
  cases a.testBit i <;> cases b.testBit i <;> cases decide (i ≥ s) <;>
    cases a.testBit (i - s) <;> cases b.testBit (i - s) <;> rfl

/-- An xor-form extract step is linear over `^^^`. -/
theorem xorStepR (s m a b : Nat) :
    ((a ^^^ b) ^^^ (a ^^^ b) >>> s) &&& m =
      ((a ^^^ a >>> s) &&& m) ^^^ ((b ^^^ b >>> s) &&& m) := by
  rw [← Nat.and_xor_distrib_right]
  congr 1
  apply Nat.eq_of_testBit_eq
  intro i
  simp only [Nat.testBit_xor, Nat.testBit_shiftRight]
  cases a.testBit i <;> cases b.testBit i <;> cases a.testBit (s + i) <;>
    cases b.testBit (s + i) <;> rfl

--==============================================================================
-- Xor-form variants of the deposit chains (proof intermediaries)
--==============================================================================

/-- Xor-form of `pdep0x55555555`; agrees with it on inputs below `2^16`. -/
def pdepXor32_2 (x : Nat) : Nat :=
  let x1 := (x ^^^ x <<< 8) &&& 0x00ff00ff
  let x2 := (x1 ^^^ x1 <<< 4) &&& 0x0f0f0f0f
  let x3 := (x2 ^^^ x2 <<< 2) &&& 0x33333333
  let x4 := (x3 ^^^ x3 <<< 1) &&& 0x55555555
  x4

/-- Xor-form of `pdep0x5555555555555555`. -/
def pdepXor64_2 (x : Nat) : Nat :=
  let x1 := (x ^^^ x <<< 16) &&& 0x0000ffff0000ffff
  let x2 := (x1 ^^^ x1 <<< 8) &&& 0x00ff00ff00ff00ff
  let x3 := (x2 ^^^ x2 <<< 4) &&& 0x0f0f0f0f0f0f0f0f
  let x4 := (x3 ^^^ x3 <<< 2) &&& 0x3333333333333333
  let x5 := (x4 ^^^ x4 <<< 1) &&& 0x5555555555555555
  x5

/-- Xor-form of `pdep0x92492492`. -/
def pdepXor32_3 (x : Nat) : Nat :=
  let x1 := (x ^^^ x <<< 16) &&& 0x030000ff
  let x2 := (x1 ^^^ x1 <<< 8) &&& 0x0300f00f
  let x3 := (x2 ^^^ x2 <<< 4) &&& 0x030c30c3
  let x4 := (x3 ^^^ x3 <<< 2) &&& 0x09249249
  x4

/-- Xor-form of `pdep0x9249249249249249`. -/
def pdepXor64_3 (x : Nat) : Nat :=
  let x1 := (x ^^^ x <<< 32) &&& 0x001f00000000ffff
  let x2 := (x1 ^^^ x1 <<< 16) &&& 0x001f0000ff0000ff
  let x3 := (x2 ^^^ x2 <<< 8) &&& 0x100f00f00f00f00f
  let x4 := (x3 ^^^ x3 <<< 4) &&& 0x10c30c30c30c30c3
  let x5 := (x4 ^^^ x4 <<< 2) &&& 0x1249249249249249
  x5

--==============================================================================
-- The emulation chains compute the generic scatter/gather at their masks
--==============================================================================

theorem pdep0x55555555_eq_xor {x : Nat} (hx : x < 2 ^ 16) :
    pdep0x55555555 x = pdepXor32_2 x := by
  have h0 : x &&& (2 ^ 16 - 1) = x := Nat.and_pow_two_sub_one_of_lt_two_pow hx
  simp only [pdep0x55555555, pdepXor32_2]
  rw [orStep_eq h0 (by norm_num) (by decide)]
  generalize hA : (x ^^^ x <<< 8) &&& 0x00ff00ff = A
  have hA1 : A &&& 0x00ff00ff = A := by rw [← hA, Nat.and_assoc, Nat.and_self]
  rw [orStep_eq hA1 (by norm_num) (by decide)]
  generalize hB : (A ^^^ A <<< 4) &&& 0x0f0f0f0f = B
  have hB1 : B &&& 0x0f0f0f0f = B := by rw [← hB, Nat.and_assoc, Nat.and_self]
  rw [orStep_eq hB1 (by norm_num) (by decide)]
  generalize hC : (B ^^^ B <<< 2) &&& 0x33333333 = C
  have hC1 : C &&& 0x33333333 = C := by rw [← hC, Nat.and_assoc, Nat.and_self]
  rw [orStep_eq hC1 (by norm_num) (by decide)]

theorem pdepXor32_2_lin (a b : Nat) :
    pdepXor32_2 (a ^^^ b) = pdepXor32_2 a ^^^ pdepXor32_2 b := by
  simp only [pdepXor32_2]
  rw [xorStepL, xorStepL, xorStepL, xorStepL]

/-- `pdep0x55555555` equals generic `pdep` at mask `0x55555555` on inputs
within the 2D precondition range. -/
theorem pdep0x55555555_eq {x : Nat} (hx : x < 2 ^ 16) :
    pdep0x55555555 x = pdep 32 x 0x55555555 := by
  rw [pdep0x55555555_eq_xor hx]
  have hbase : ∀ j, j < 16 →
      pdepXor32_2 (2 ^ j) = pdep 32 (2 ^ j) 0x55555555 := by decide
  exact linEq (f := pdepXor32_2) (g := fun v => pdep 32 v 0x55555555)
    pdepXor32_2_lin (fun a b => pdep_xor 32 a b 0x55555555) 16 hbase x hx

theorem pdep0x5555555555555555_eq_xor {x : Nat} (hx : x < 2 ^ 32) :
    pdep0x5555555555555555 x = pdepXor64_2 x := by
  have h0 : x &&& (2 ^ 32 - 1) = x := Nat.and_pow_two_sub_one_of_lt_two_pow hx
  simp only [pdep0x5555555555555555, pdepXor64_2]
  rw [orStep_eq h0 (by norm_num) (by decide)]
  generalize hA : (x ^^^ x <<< 16) &&& 0x0000ffff0000ffff = A
  have hA1 : A &&& 0x0000ffff0000ffff = A := by
    rw [← hA, Nat.and_assoc, Nat.and_self]
  rw [orStep_eq hA1 (by norm_num) (by decide)]
  generalize hB : (A ^^^ A <<< 8) &&& 0x00ff00ff00ff00ff = B
  have hB1 : B &&& 0x00ff00ff00ff00ff = B := by
    rw [← hB, Nat.and_assoc, Nat.and_self]
  rw [orStep_eq hB1 (by norm_num) (by decide)]
  generalize hC : (B ^^^ B <<< 4) &&& 0x0f0f0f0f0f0f0f0f = C
  have hC1 : C &&& 0x0f0f0f0f0f0f0f0f = C := by
    rw [← hC, Nat.and_assoc, Nat.and_self]
  rw [orStep_eq hC1 (by norm_num) (by decide)]
  generalize hD : (C ^^^ C <<< 2) &&& 0x3333333333333333 = D
  have hD1 : D &&& 0x3333333333333333 = D := by
    rw [← hD, Nat.and_assoc, Nat.and_self]
  rw [orStep_eq hD1 (by norm_num) (by decide)]

theorem pdepXor64_2_lin (a b : Nat) :
    pdepXor64_2 (a ^^^ b) = pdepXor64_2 a ^^^ pdepXor64_2 b := by
  simp only [pdepXor64_2]
  rw [xorStepL, xorStepL, xorStepL, xorStepL, xorStepL]

/-- `pdep0x5555555555555555` equals generic `pdep` at its mask on inputs
within the 2D precondition range. -/
theorem pdep0x5555555555555555_eq {x : Nat} (hx : x < 2 ^ 32) :
    pdep0x5555555555555555 x = pdep 64 x 0x5555555555555555 := by
  rw [pdep0x5555555555555555_eq_xor hx]
  have hbase : ∀ j, j < 32 →
      pdepXor64_2 (2 ^ j) = pdep 64 (2 ^ j) 0x5555555555555555 := by decide
  exact linEq (f := pdepXor64_2) (g := fun v => pdep 64 v 0x5555555555555555)
    pdepXor64_2_lin (fun a b => pdep_xor 64 a b 0x5555555555555555) 32 hbase
    x hx

theorem pdep0x92492492_eq_xor {x : Nat} (hx : x < 2 ^ 10) :
    pdep0x92492492 x = pdepXor32_3 x := by
  have h0 : x &&& (2 ^ 10 - 1) = x := Nat.and_pow_two_sub_one_of_lt_two_pow hx
  simp only [pdep0x92492492, pdepXor32_3]
  rw [orStep_eq h0 (by norm_num) (by decide)]
  generalize hA : (x ^^^ x <<< 16) &&& 0x030000ff = A
  have hA1 : A &&& 0x030000ff = A := by rw [← hA, Nat.and_assoc, Nat.and_self]
  rw [orStep_eq hA1 (by norm_num) (by decide)]
  generalize hB : (A ^^^ A <<< 8) &&& 0x0300f00f = B
  have hB1 : B &&& 0x0300f00f = B := by rw [← hB, Nat.and_assoc, Nat.and_self]
  rw [orStep_eq hB1 (by norm_num) (by decide)]
  generalize hC : (B ^^^ B <<< 4) &&& 0x030c30c3 = C
  have hC1 : C &&& 0x030c30c3 = C := by rw [← hC, Nat.and_assoc, Nat.and_self]
  rw [orStep_eq hC1 (by norm_num) (by decide)]

theorem pdepXor32_3_lin (a b : Nat) :
    pdepXor32_3 (a ^^^ b) = pdepXor32_3 a ^^^ pdepXor32_3 b := by
  simp only [pdepXor32_3]
  rw [xorStepL, xorStepL, xorStepL, xorStepL]

/-- `pdep0x92492492` equals generic `pdep` at mask `0x09249249` on inputs
within the 3D precondition range. -/
theorem pdep0x92492492_eq {x : Nat} (hx : x < 2 ^ 10) :
    pdep0x92492492 x = pdep 32 x 0x09249249 := by
  rw [pdep0x92492492_eq_xor hx]
  have hbase : ∀ j, j < 10 →
      pdepXor32_3 (2 ^ j) = pdep 32 (2 ^ j) 0x09249249 := by decide
  exact linEq (f := pdepXor32_3) (g := fun v => pdep 32 v 0x09249249)
    pdepXor32_3_lin (fun a b => pdep_xor 32 a b 0x09249249) 10 hbase x hx

theorem pdep0x9249249249249249_eq_xor {x : Nat} (hx : x < 2 ^ 21) :
    pdep0x9249249249249249 x = pdepXor64_3 x := by
  have h0 : x &&& (2 ^ 21 - 1) = x := Nat.and_pow_two_sub_one_of_lt_two_pow hx
  simp only [pdep0x9249249249249249, pdepXor64_3]
  rw [orStep_eq h0 (by norm_num) (by decide)]
  generalize hA : (x ^^^ x <<< 32) &&& 0x001f00000000ffff = A
  have hA1 : A &&& 0x001f00000000ffff = A := by
    rw [← hA, Nat.and_assoc, Nat.and_self]
  rw [orStep_eq hA1 (by norm_num) (by decide)]
  generalize hB : (A ^^^ A <<< 16) &&& 0x001f0000ff0000ff = B
  have hB1 : B &&& 0x001f0000ff0000ff = B := by
    rw [← hB, Nat.and_assoc, Nat.and_self]
  rw [orStep_eq hB1 (by norm_num) (by decide)]
  generalize hC : (B ^^^ B <<< 8) &&& 0x100f00f00f00f00f = C
  have hC1 : C &&& 0x100f00f00f00f00f = C := by
    rw [← hC, Nat.and_assoc, Nat.and_self]
  rw [orStep_eq hC1 (by norm_num) (by decide)]
  generalize hD : (C ^^^ C <<< 4) &&& 0x10c30c30c30c30c3 = D
  have hD1 : D &&& 0x10c30c30c30c30c3 = D := by
    rw [← hD, Nat.and_assoc, Nat.and_self]
  rw [orStep_eq hD1 (by norm_num) (by decide)]

theorem pdepXor64_3_lin (a b : Nat) :
    pdepXor64_3 (a ^^^ b) = pdepXor64_3 a ^^^ pdepXor64_3 b := by
  simp only [pdepXor64_3]
  rw [xorStepL, xorStepL, xorStepL, xorStepL, xorStepL]

/-- `pdep0x9249249249249249` equals generic `pdep` at mask
`0x1249249249249249` on inputs within the 3D precondition range. -/
theorem pdep0x9249249249249249_eq {x : Nat} (hx : x < 2 ^ 21) :
    pdep0x9249249249249249 x = pdep 64 x 0x1249249249249249 := by
  rw [pdep0x9249249249249249_eq_xor hx]
  have hbase : ∀ j, j < 21 →
      pdepXor64_3 (2 ^ j) = pdep 64 (2 ^ j) 0x1249249249249249 := by decide
  exact linEq (f := pdepXor64_3) (g := fun v => pdep 64 v 0x1249249249249249)
    pdepXor64_3_lin (fun a b => pdep_xor 64 a b 0x1249249249249249) 21 hbase
    x hx

theorem pext0x55555555_lin (a b : Nat) :
    pext0x55555555 (a ^^^ b) = pext0x55555555 a ^^^ pext0x55555555 b := by
  simp only [pext0x55555555]
  rw [Nat.and_xor_distrib_right (a := a) (b := b), xorStepR, xorStepR,
    xorStepR, xorStepR]

/-- `pext0x55555555` equals generic `pext` at mask `0x55555555` on every
32-bit value. -/
theorem pext0x55555555_eq {m : Nat} (hm : m < 2 ^ 32) :
    pext0x55555555 m = pext 32 m 0x55555555 := by
  have hbase : ∀ j, j < 32 →
      pext0x55555555 (2 ^ j) = pext 32 (2 ^ j) 0x55555555 := by decide
  exact linEq (f := pext0x55555555) (g := fun v => pext 32 v 0x55555555)
    pext0x55555555_lin (fun a b => pext_xor 32 a b 0x55555555) 32 hbase m hm

theorem pext0x5555555555555555_lin (a b : Nat) :
    pext0x5555555555555555 (a ^^^ b) =
      pext0x5555555555555555 a ^^^ pext0x5555555555555555 b := by
  simp only [pext0x5555555555555555]
  rw [Nat.and_xor_distrib_right (a := a) (b := b), xorStepR, xorStepR,
    xorStepR, xorStepR, xorStepR]

/-- `pext0x5555555555555555` equals generic `pext` at its mask on every
64-bit value. -/
theorem pext0x5555555555555555_eq {m : Nat} (hm : m < 2 ^ 64) :
    pext0x5555555555555555 m = pext 64 m 0x5555555555555555 := by
  have hbase : ∀ j, j < 64 →
      pext0x5555555555555555 (2 ^ j) =
        pext 64 (2 ^ j) 0x5555555555555555 := by decide
  exact linEq (f := pext0x5555555555555555)
    (g := fun v => pext 64 v 0x5555555555555555) pext0x5555555555555555_lin
    (fun a b => pext_xor 64 a b 0x5555555555555555) 64 hbase m hm

theorem pext0x92492492_lin (a b : Nat) :
    pext0x92492492 (a ^^^ b) = pext0x92492492 a ^^^ pext0x92492492 b := by
  simp only [pext0x92492492]
  rw [Nat.and_xor_distrib_right (a := a) (b := b), xorStepR, xorStepR,
    xorStepR, xorStepR]

/-- `pext0x92492492` equals generic `pext` at mask `0x09249249` on every
32-bit value. -/
theorem pext0x92492492_eq {m : Nat} (hm : m < 2 ^ 32) :
    pext0x92492492 m = pext 32 m 0x09249249 := by
  have hbase : ∀ j, j < 32 →
      pext0x92492492 (2 ^ j) = pext 32 (2 ^ j) 0x09249249 := by decide
  exact linEq (f := pext0x92492492) (g := fun v => pext 32 v 0x09249249)
    pext0x92492492_lin (fun a b => pext_xor 32 a b 0x09249249) 32 hbase m hm

theorem pext0x9249249249249249_lin (a b : Nat) :
    pext0x9249249249249249 (a ^^^ b) =
      pext0x9249249249249249 a ^^^ pext0x9249249249249249 b := by
  simp only [pext0x9249249249249249]
  rw [Nat.and_xor_distrib_right (a := a) (b := b), xorStepR, xorStepR,
    xorStepR, xorStepR, xorStepR]

/-- `pext0x9249249249249249` equals generic `pext` at mask
`0x1249249249249249` on every 64-bit value. -/
theorem pext0x9249249249249249_eq {m : Nat} (hm : m < 2 ^ 64) :
    pext0x9249249249249249 m = pext 64 m 0x1249249249249249 := by
  have hbase : ∀ j, j < 64 →
      pext0x9249249249249249 (2 ^ j) =
        pext 64 (2 ^ j) 0x1249249249249249 := by decide
  exact linEq (f := pext0x9249249249249249)
    (g := fun v => pext 64 v 0x1249249249249249) pext0x9249249249249249_lin
    (fun a b => pext_xor 64 a b 0x1249249249249249) 64 hbase m hm

--==============================================================================
-- Morton-level helper lemmas
--==============================================================================

theorem and_eq_zero_of_sub {a A m : Nat} (ha : a &&& A = a)
    (hAm : A &&& m = 0) : a &&& m = 0 := by
  rw [← ha, Nat.and_assoc, hAm, Nat.and_zero]

/-- Shifting a deposit left by one is a deposit at the doubled mask. -/
theorem pdep_double (w s m : Nat) (hm : 2 * m < 2 ^ w) :
    pdep w s m <<< 1 = pdep w s (2 * m) := by
  have h1 := pdep_mask_double w s m
  have h2 := pdep_fuel w 1 s (2 * m) hm
  rw [Nat.shiftLeft_eq, pow_one]
  omega

/-- Extracting at a doubled mask is extracting the shifted source. -/
theorem pext_double (w s m : Nat) (hm : 2 * m < 2 ^ w) :
    pext w s (2 * m) = pext w (s >>> 1) m := by
  have h1 := pext_mask_double w s m
  have h2 := pext_fuel w 1 s (2 * m) hm
  rw [Nat.shiftRight_eq_div_pow, pow_one]
  omega

-- Bounds on the emulation chains, read off their final masks.

theorem pdep0x55555555_le (x : Nat) : pdep0x55555555 x ≤ 0x55555555 :=
  Nat.and_le_right

theorem pdep0x5555555555555555_le (x : Nat) :
    pdep0x5555555555555555 x ≤ 0x5555555555555555 :=
  Nat.and_le_right

theorem pdep0x92492492_le (x : Nat) : pdep0x92492492 x ≤ 0x09249249 :=
  Nat.and_le_right

theorem pdep0x9249249249249249_le (x : Nat) :
    pdep0x9249249249249249 x ≤ 0x1249249249249249 :=
  Nat.and_le_right

theorem pext0x55555555_le (x : Nat) : pext0x55555555 x ≤ 0x0000ffff :=
  Nat.and_le_right

theorem pext0x5555555555555555_le (x : Nat) :
    pext0x5555555555555555 x ≤ 0x00000000ffffffff :=
  Nat.and_le_right

theorem pext0x92492492_le (x : Nat) : pext0x92492492 x ≤ 0x000003ff :=
  Nat.and_le_right

theorem pext0x9249249249249249_le (x : Nat) :
    pext0x9249249249249249 x ≤ 0x00000000001fffff :=
  Nat.and_le_right

theorem shiftLeft_two (v : Nat) : v <<< 2 = (v <<< 1) <<< 1 := by
  rw [show (2 : Nat) = 1 + 1 by norm_num, Nat.shiftLeft_add]

-- Generic normal forms of the emulation-path encoders.

/-- The 32-bit 2D emulation encoder in generic scatter form. -/
theorem mortonEncode32_2_generic {x y : Nat} (hx : x < 2 ^ 16)
    (hy : y < 2 ^ 16) :
    mortonEncode32_2 x y = pdep 32 x 0x55555555 ||| pdep 32 y 0xAAAAAAAA := by
  have hBle := pdep0x55555555_le y
  have hshift : pdep0x55555555 y <<< 1 < 2 ^ 32 := by
    rw [Nat.shiftLeft_eq, pow_one]
    norm_num at hBle ⊢
    omega
  simp only [mortonEncode32_2]
  rw [Nat.mod_eq_of_lt hshift, pdep0x55555555_eq hx, pdep0x55555555_eq hy,
    pdep_double 32 y 0x55555555 (by norm_num),
    show (2 * 0x55555555 : Nat) = 0xAAAAAAAA by norm_num]

/-- The 64-bit 2D emulation encoder in generic scatter form. -/
theorem mortonEncode64_2_generic {x y : Nat} (hx : x < 2 ^ 32)
    (hy : y < 2 ^ 32) :
    mortonEncode64_2 x y =
      pdep 64 x 0x5555555555555555 ||| pdep 64 y 0xAAAAAAAAAAAAAAAA := by
  have hBle := pdep0x5555555555555555_le y
  have hshift : pdep0x5555555555555555 y <<< 1 < 2 ^ 64 := by
    rw [Nat.shiftLeft_eq, pow_one]
    norm_num at hBle ⊢
    omega
  simp only [mortonEncode64_2]
  rw [Nat.mod_eq_of_lt hshift, pdep0x5555555555555555_eq hx,
    pdep0x5555555555555555_eq hy,
    pdep_double 64 y 0x5555555555555555 (by norm_num),
    show (2 * 0x5555555555555555 : Nat) = 0xAAAAAAAAAAAAAAAA by norm_num]

/-- The 32-bit 3D emulation encoder in generic scatter form. -/
theorem mortonEncode32_3_generic {x y z : Nat} (hx : x < 2 ^ 10)
    (hy : y < 2 ^ 10) (hz : z < 2 ^ 10) :
    mortonEncode32_3 x y z =
      pdep 32 x 0x09249249 ||| pdep 32 y 0x12492492 |||
        pdep 32 z 0x24924924 := by
  have hyle := pdep0x92492492_le y
  have hzle := pdep0x92492492_le z
  have hshifty : pdep0x92492492 y <<< 1 < 2 ^ 32 := by
    rw [Nat.shiftLeft_eq, pow_one]
    norm_num at hyle ⊢
    omega
  have hshiftz : pdep0x92492492 z <<< 2 < 2 ^ 32 := by
    rw [Nat.shiftLeft_eq]
    norm_num at hzle ⊢
    omega
  simp only [mortonEncode32_3]
  rw [Nat.mod_eq_of_lt hshifty, Nat.mod_eq_of_lt hshiftz,
    pdep0x92492492_eq hx, pdep0x92492492_eq hy, pdep0x92492492_eq hz,
    pdep_double 32 y 0x09249249 (by norm_num),
    show (2 * 0x09249249 : Nat) = 0x12492492 by norm_num,
    shiftLeft_two (pdep 32 z 0x09249249),
    pdep_double 32 z 0x09249249 (by norm_num),
    show (2 * 0x09249249 : Nat) = 0x12492492 by norm_num,
    pdep_double 32 z 0x12492492 (by norm_num),
    show (2 * 0x12492492 : Nat) = 0x24924924 by norm_num]

/-- The 64-bit 3D emulation encoder in generic scatter form. -/
theorem mortonEncode64_3_generic {x y z : Nat} (hx : x < 2 ^ 21)
    (hy : y < 2 ^ 21) (hz : z < 2 ^ 21) :
    mortonEncode64_3 x y z =
      pdep 64 x 0x1249249249249249 ||| pdep 64 y 0x2492492492492492 |||
        pdep 64 z 0x4924924924924924 := by
  have hyle := pdep0x9249249249249249_le y
  have hzle := pdep0x9249249249249249_le z
  have hshifty : pdep0x9249249249249249 y <<< 1 < 2 ^ 64 := by
    rw [Nat.shiftLeft_eq, pow_one]
    norm_num at hyle ⊢
    omega
  have hshiftz : pdep0x9249249249249249 z <<< 2 < 2 ^ 64 := by
    rw [Nat.shiftLeft_eq]
    norm_num at hzle ⊢
    omega
  simp only [mortonEncode64_3]
  rw [Nat.mod_eq_of_lt hshifty, Nat.mod_eq_of_lt hshiftz,
    pdep0x9249249249249249_eq hx, pdep0x9249249249249249_eq hy,
    pdep0x9249249249249249_eq hz,
    pdep_double 64 y 0x1249249249249249 (by norm_num),
    show (2 * 0x1249249249249249 : Nat) = 0x2492492492492492 by norm_num,
    shiftLeft_two (pdep 64 z 0x1249249249249249),
    pdep_double 64 z 0x1249249249249249 (by norm_num),
    show (2 * 0x1249249249249249 : Nat) = 0x2492492492492492 by norm_num,
    pdep_double 64 z 0x2492492492492492 (by norm_num),
    show (2 * 0x2492492492492492 : Nat) = 0x4924924924924924 by norm_num]

-- Channel selection out of a disjoint union of deposits.

theorem channel2_left {w mx my : Nat} (x y : Nat) (hdis : my &&& mx = 0) :
    pext w (pdep w x mx ||| pdep w y my) mx = x % 2 ^ maskCount w mx := by
  rw [pext_or_right (and_eq_zero_of_sub (pdep_and_mask w y my) hdis),
    pext_pdep]

theorem channel2_right {w mx my : Nat} (x y : Nat) (hdis : mx &&& my = 0) :
    pext w (pdep w x mx ||| pdep w y my) my = y % 2 ^ maskCount w my := by
  rw [pext_or_left (and_eq_zero_of_sub (pdep_and_mask w x mx) hdis),
    pext_pdep]

theorem channel3_1 {w mx my mz : Nat} (x y z : Nat) (hy : my &&& mx = 0)
    (hz : mz &&& mx = 0) :
    pext w (pdep w x mx ||| pdep w y my ||| pdep w z mz) mx =
      x % 2 ^ maskCount w mx := by
  rw [pext_or_right (and_eq_zero_of_sub (pdep_and_mask w z mz) hz),
    pext_or_right (and_eq_zero_of_sub (pdep_and_mask w y my) hy), pext_pdep]

theorem channel3_2 {w mx my mz : Nat} (x y z : Nat) (hx : mx &&& my = 0)
    (hz : mz &&& my = 0) :
    pext w (pdep w x mx ||| pdep w y my ||| pdep w z mz) my =
      y % 2 ^ maskCount w my := by
  rw [pext_or_right (and_eq_zero_of_sub (pdep_and_mask w z mz) hz),
    pext_or_left (and_eq_zero_of_sub (pdep_and_mask w x mx) hx), pext_pdep]

theorem channel3_3 {w mx my mz : Nat} (x y z : Nat) (hx : mx &&& mz = 0)
    (hy : my &&& mz = 0) :
    pext w (pdep w x mx ||| pdep w y my ||| pdep w z mz) mz =
      z % 2 ^ maskCount w mz := by
  rw [pext_or_left (A := pdep w x mx ||| pdep w y my)]
  · rw [pext_pdep]
  · rw [Nat.and_distrib_right,
      and_eq_zero_of_sub (pdep_and_mask w x mx) hx,
      and_eq_zero_of_sub (pdep_and_mask w y my) hy, Nat.or_zero]

-- Values of the truncated 32-bit BMI mask constants.

theorem bmi_2d_x_mask32_eq : bmi_2d_x_mask32 = 0x55555555 := by decide

theorem bmi_2d_y_mask32_eq : bmi_2d_y_mask32 = 0xAAAAAAAA := by decide

theorem bmi_3d_x_mask32_eq : bmi_3d_x_mask32 = 0x49249249 := by decide

theorem bmi_3d_y_mask32_eq : bmi_3d_y_mask32 = 0x92492492 := by decide

theorem bmi_3d_z_mask32_eq : bmi_3d_z_mask32 = 0x24924924 := by decide

-- Generic normal forms of the emulation-path decoders.

/-- The 32-bit 2D emulation decoder in generic gather form. -/
theorem mortonDecode32_2_generic {m : Nat} (hm : m < 2 ^ 32) :
    mortonDecode32_2 m = (pext 32 m 0x55555555, pext 32 m 0xAAAAAAAA) := by
  have h1 : m >>> 1 < 2 ^ 32 := by
    rw [Nat.shiftRight_eq_div_pow, pow_one]
    omega
  simp only [mortonDecode32_2]
  rw [pext0x55555555_eq hm, pext0x55555555_eq h1,
    ← pext_double 32 m 0x55555555 (by norm_num),
    show (2 * 0x55555555 : Nat) = 0xAAAAAAAA by norm_num]

/-- The 64-bit 2D emulation decoder in generic gather form. -/
theorem mortonDecode64_2_generic {m : Nat} (hm : m < 2 ^ 64) :
    mortonDecode64_2 m =
      (pext 64 m 0x5555555555555555, pext 64 m 0xAAAAAAAAAAAAAAAA) := by
  have h1 : m >>> 1 < 2 ^ 64 := by
    rw [Nat.shiftRight_eq_div_pow, pow_one]
    omega
  simp only [mortonDecode64_2]
  rw [pext0x5555555555555555_eq hm, pext0x5555555555555555_eq h1,
    ← pext_double 64 m 0x5555555555555555 (by norm_num),
    show (2 * 0x5555555555555555 : Nat) = 0xAAAAAAAAAAAAAAAA by norm_num]

/-- The 32-bit 3D emulation decoder in generic gather form. -/
theorem mortonDecode32_3_generic {m : Nat} (hm : m < 2 ^ 32) :
    mortonDecode32_3 m =
      (pext 32 m 0x09249249, pext 32 m 0x12492492, pext 32 m 0x24924924) := by
  have h1 : m >>> 1 < 2 ^ 32 := by
    rw [Nat.shiftRight_eq_div_pow, pow_one]
    omega
  have h2 : m >>> 2 = (m >>> 1) >>> 1 := by
    rw [show (2 : Nat) = 1 + 1 by norm_num, Nat.shiftRight_add]
  have h3 : (m >>> 1) >>> 1 < 2 ^ 32 := by
    rw [Nat.shiftRight_eq_div_pow, pow_one]
    omega
  simp only [mortonDecode32_3]
  rw [h2, pext0x92492492_eq hm, pext0x92492492_eq h1, pext0x92492492_eq h3,
    ← pext_double 32 (m >>> 1) 0x09249249 (by norm_num),
    show (2 * 0x09249249 : Nat) = 0x12492492 by norm_num,
    ← pext_double 32 m 0x09249249 (by norm_num),
    show (2 * 0x09249249 : Nat) = 0x12492492 by norm_num,
    ← pext_double 32 m 0x12492492 (by norm_num),
    show (2 * 0x12492492 : Nat) = 0x24924924 by norm_num]

/-- The 64-bit 3D emulation decoder in generic gather form. -/
theorem mortonDecode64_3_generic {m : Nat} (hm : m < 2 ^ 64) :
    mortonDecode64_3 m =
      (pext 64 m 0x1249249249249249, pext 64 m 0x2492492492492492,
        pext 64 m 0x4924924924924924) := by
  have h1 : m >>> 1 < 2 ^ 64 := by
    rw [Nat.shiftRight_eq_div_pow, pow_one]
    omega
  have h2 : m >>> 2 = (m >>> 1) >>> 1 := by
    rw [show (2 : Nat) = 1 + 1 by norm_num, Nat.shiftRight_add]
  have h3 : (m >>> 1) >>> 1 < 2 ^ 64 := by
    rw [Nat.shiftRight_eq_div_pow, pow_one]
    omega
  simp only [mortonDecode64_3]
  rw [h2, pext0x9249249249249249_eq hm, pext0x9249249249249249_eq h1,
    pext0x9249249249249249_eq h3,
    ← pext_double 64 (m >>> 1) 0x1249249249249249 (by norm_num),
    show (2 * 0x1249249249249249 : Nat) = 0x2492492492492492 by norm_num,
    ← pext_double 64 m 0x1249249249249249 (by norm_num),
    show (2 * 0x1249249249249249 : Nat) = 0x2492492492492492 by norm_num,
    ← pext_double 64 m 0x2492492492492492 (by norm_num),
    show (2 * 0x2492492492492492 : Nat) = 0x4924924924924924 by norm_num]

-- Values of the maximum coordinate constants.

theorem max_2d_morton_coord32_eq : max_2d_morton_coord32 = 0xFFFF := by decide

theorem max_2d_morton_coord64_eq : max_2d_morton_coord64 = 0xFFFFFFFF := by
  decide

theorem max_3d_morton_coord32_eq : max_3d_morton_coord32 = 0x3FF := by decide

theorem max_3d_morton_coord64_eq : max_3d_morton_coord64 = 0x1FFFFF := by
  decide

-- Roundtrip of each codec instance.

theorem rt_emu32_2 {x y : Nat} (hx : x < 2 ^ 16) (hy : y < 2 ^ 16) :
    mortonDecode32_2 (mortonEncode32_2 x y) = (x, y) := by
  have henc := mortonEncode32_2_generic hx hy
  have hlt : mortonEncode32_2 x y < 2 ^ 32 := by
    rw [henc]
    exact Nat.or_lt_two_pow (pdep_lt 32 x _) (pdep_lt 32 y _)
  rw [mortonDecode32_2_generic hlt, henc,
    channel2_left x y (by decide), channel2_right x y (by decide),
    (by decide : maskCount 32 0x55555555 = 16),
    (by decide : maskCount 32 0xAAAAAAAA = 16),
    Nat.mod_eq_of_lt hx, Nat.mod_eq_of_lt hy]

theorem rt_emu64_2 {x y : Nat} (hx : x < 2 ^ 32) (hy : y < 2 ^ 32) :
    mortonDecode64_2 (mortonEncode64_2 x y) = (x, y) := by
  have henc := mortonEncode64_2_generic hx hy
  have hlt : mortonEncode64_2 x y < 2 ^ 64 := by
    rw [henc]
    exact Nat.or_lt_two_pow (pdep_lt 64 x _) (pdep_lt 64 y _)
  rw [mortonDecode64_2_generic hlt, henc,
    channel2_left x y (by decide), channel2_right x y (by decide),
    (by decide : maskCount 64 0x5555555555555555 = 32),
    (by decide : maskCount 64 0xAAAAAAAAAAAAAAAA = 32),
    Nat.mod_eq_of_lt hx, Nat.mod_eq_of_lt hy]

theorem rt_emu32_3 {x y z : Nat} (hx : x < 2 ^ 10) (hy : y < 2 ^ 10)
    (hz : z < 2 ^ 10) :
    mortonDecode32_3 (mortonEncode32_3 x y z) = (x, y, z) := by
  have henc := mortonEncode32_3_generic hx hy hz
  have hlt : mortonEncode32_3 x y z < 2 ^ 32 := by
    rw [henc]
    exact Nat.or_lt_two_pow
      (Nat.or_lt_two_pow (pdep_lt 32 x _) (pdep_lt 32 y _)) (pdep_lt 32 z _)
  rw [mortonDecode32_3_generic hlt, henc,
    channel3_1 x y z (by decide) (by decide),
    channel3_2 x y z (by decide) (by decide),
    channel3_3 x y z (by decide) (by decide),
    (by decide : maskCount 32 0x09249249 = 10),
    (by decide : maskCount 32 0x12492492 = 10),
    (by decide : maskCount 32 0x24924924 = 10),
    Nat.mod_eq_of_lt hx, Nat.mod_eq_of_lt hy, Nat.mod_eq_of_lt hz]

theorem rt_emu64_3 {x y z : Nat} (hx : x < 2 ^ 21) (hy : y < 2 ^ 21)
    (hz : z < 2 ^ 21) :
    mortonDecode64_3 (mortonEncode64_3 x y z) = (x, y, z) := by
  have henc := mortonEncode64_3_generic hx hy hz
  have hlt : mortonEncode64_3 x y z < 2 ^ 64 := by
    rw [henc]
    exact Nat.or_lt_two_pow
      (Nat.or_lt_two_pow (pdep_lt 64 x _) (pdep_lt 64 y _)) (pdep_lt 64 z _)
  rw [mortonDecode64_3_generic hlt, henc,
    channel3_1 x y z (by decide) (by decide),
    channel3_2 x y z (by decide) (by decide),
    channel3_3 x y z (by decide) (by decide),
    (by decide : maskCount 64 0x1249249249249249 = 21),
    (by decide : maskCount 64 0x2492492492492492 = 21),
    (by decide : maskCount 64 0x4924924924924924 = 21),
    Nat.mod_eq_of_lt hx, Nat.mod_eq_of_lt hy, Nat.mod_eq_of_lt hz]

theorem rt_bmi32_2 {x y : Nat} (hx : x < 2 ^ 16) (hy : y < 2 ^ 16) :
    mortonDecodeBmi32_2 (mortonEncodeBmi32_2 x y) = (x, y) := by
  simp only [mortonDecodeBmi32_2, mortonEncodeBmi32_2, bmi_2d_x_mask32_eq,
    bmi_2d_y_mask32_eq]
  rw [channel2_left x y (by decide), channel2_right x y (by decide),
    (by decide : maskCount 32 0x55555555 = 16),
    (by decide : maskCount 32 0xAAAAAAAA = 16),
    Nat.mod_eq_of_lt hx, Nat.mod_eq_of_lt hy]

theorem rt_bmi64_2 {x y : Nat} (hx : x < 2 ^ 32) (hy : y < 2 ^ 32) :
    mortonDecodeBmi64_2 (mortonEncodeBmi64_2 x y) = (x, y) := by
  simp only [mortonDecodeBmi64_2, mortonEncodeBmi64_2, bmi_2d_x_mask64,
    bmi_2d_y_mask64]
  rw [channel2_left x y (by decide), channel2_right x y (by decide),
    (by decide : maskCount 64 0x5555555555555555 = 32),
    (by decide : maskCount 64 0xAAAAAAAAAAAAAAAA = 32),
    Nat.mod_eq_of_lt hx, Nat.mod_eq_of_lt hy]

theorem rt_bmi32_3 {x y z : Nat} (hx : x < 2 ^ 10) (hy : y < 2 ^ 10)
    (hz : z < 2 ^ 10) :
    mortonDecodeBmi32_3 (mortonEncodeBmi32_3 x y z) = (x, y, z) := by
  simp only [mortonDecodeBmi32_3, mortonEncodeBmi32_3, bmi_3d_x_mask32_eq,
    bmi_3d_y_mask32_eq, bmi_3d_z_mask32_eq]
  rw [channel3_1 x y z (by decide) (by decide),
    channel3_2 x y z (by decide) (by decide),
    channel3_3 x y z (by decide) (by decide),
    (by decide : maskCount 32 0x49249249 = 11),
    (by decide : maskCount 32 0x92492492 = 11),
    (by decide : maskCount 32 0x24924924 = 10),
    Nat.mod_eq_of_lt (by omega : x < 2 ^ 11),
    Nat.mod_eq_of_lt (by omega : y < 2 ^ 11), Nat.mod_eq_of_lt hz]

theorem rt_bmi64_3 {x y z : Nat} (hx : x < 2 ^ 21) (hy : y < 2 ^ 21)
    (hz : z < 2 ^ 21) :
    mortonDecodeBmi64_3 (mortonEncodeBmi64_3 x y z) = (x, y, z) := by
  simp only [mortonDecodeBmi64_3, mortonEncodeBmi64_3, bmi_3d_x_mask64,
    bmi_3d_y_mask64, bmi_3d_z_mask64]
  rw [channel3_1 x y z (by decide) (by decide),
    channel3_2 x y z (by decide) (by decide),
    channel3_3 x y z (by decide) (by decide),
    (by decide : maskCount 64 0x9249249249249249 = 22),
    (by decide : maskCount 64 0x2492492492492492 = 21),
    (by decide : maskCount 64 0x4924924924924924 = 21),
    Nat.mod_eq_of_lt (by omega : x < 2 ^ 22),
    Nat.mod_eq_of_lt hy, Nat.mod_eq_of_lt hz]

--==============================================================================
-- Claim theorems
--==============================================================================

/-- C1: for both unsigned integer widths (`uint32_t`, `uint64_t`) and both
dimensionalities, for all coordinates each at most the corresponding maximum
Morton coordinate, `mortonDecode (mortonEncode coords) = coords` — on the
portable emulation path and on the BMI2 hardware path alike. -/
theorem C1_integer_roundtrip :
    (∀ x y, x ≤ max_2d_morton_coord32 → y ≤ max_2d_morton_coord32 →
      mortonDecode32_2 (mortonEncode32_2 x y) = (x, y) ∧
      mortonDecodeBmi32_2 (mortonEncodeBmi32_2 x y) = (x, y)) ∧
    (∀ x y, x ≤ max_2d_morton_coord64 → y ≤ max_2d_morton_coord64 →
      mortonDecode64_2 (mortonEncode64_2 x y) = (x, y) ∧
      mortonDecodeBmi64_2 (mortonEncodeBmi64_2 x y) = (x, y)) ∧
    (∀ x y z, x ≤ max_3d_morton_coord32 → y ≤ max_3d_morton_coord32 →
      z ≤ max_3d_morton_coord32 →
      mortonDecode32_3 (mortonEncode32_3 x y z) = (x, y, z) ∧
      mortonDecodeBmi32_3 (mortonEncodeBmi32_3 x y z) = (x, y, z)) ∧
    (∀ x y z, x ≤ max_3d_morton_coord64 → y ≤ max_3d_morton_coord64 →
      z ≤ max_3d_morton_coord64 →
      mortonDecode64_3 (mortonEncode64_3 x y z) = (x, y, z) ∧
      mortonDecodeBmi64_3 (mortonEncodeBmi64_3 x y z) = (x, y, z)) := by
  refine ⟨fun x y hx hy => ?_, fun x y hx hy => ?_,
    fun x y z hx hy hz => ?_, fun x y z hx hy hz => ?_⟩
  · rw [max_2d_morton_coord32_eq] at hx hy
    exact ⟨rt_emu32_2 (by omega) (by omega), rt_bmi32_2 (by omega) (by omega)⟩
  · rw [max_2d_morton_coord64_eq] at hx hy
    exact ⟨rt_emu64_2 (by omega) (by omega), rt_bmi64_2 (by omega) (by omega)⟩
  · rw [max_3d_morton_coord32_eq] at hx hy hz
    exact ⟨rt_emu32_3 (by omega) (by omega) (by omega),
      rt_bmi32_3 (by omega) (by omega) (by omega)⟩
  · rw [max_3d_morton_coord64_eq] at hx hy hz
    exact ⟨rt_emu64_3 (by omega) (by omega) (by omega),
      rt_bmi64_3 (by omega) (by omega) (by omega)⟩

/-- Witness for C1 at concrete coordinates. -/
theorem C1_integer_roundtrip_witness :
    mortonDecode32_2 (mortonEncode32_2 3 5) = (3, 5) ∧
    mortonDecodeBmi32_2 (mortonEncodeBmi32_2 3 5) = (3, 5) ∧
    mortonDecode64_2 (mortonEncode64_2 70000 80000) = (70000, 80000) ∧
    mortonDecodeBmi64_2 (mortonEncodeBmi64_2 70000 80000) = (70000, 80000) ∧
    mortonDecode32_3 (mortonEncode32_3 7 9 11) = (7, 9, 11) ∧
    mortonDecodeBmi32_3 (mortonEncodeBmi32_3 7 9 11) = (7, 9, 11) ∧
    mortonDecode64_3 (mortonEncode64_3 2000 3000 4000) = (2000, 3000, 4000) ∧
    mortonDecodeBmi64_3 (mortonEncodeBmi64_3 2000 3000 4000) =
      (2000, 3000, 4000) :=
  ⟨(C1_integer_roundtrip.1 3 5 (by decide) (by decide)).1,
    (C1_integer_roundtrip.1 3 5 (by decide) (by decide)).2,
    (C1_integer_roundtrip.2.1 70000 80000 (by decide) (by decide)).1,
    (C1_integer_roundtrip.2.1 70000 80000 (by decide) (by decide)).2,
    (C1_integer_roundtrip.2.2.1 7 9 11 (by decide) (by decide) (by decide)).1,
    (C1_integer_roundtrip.2.2.1 7 9 11 (by decide) (by decide) (by decide)).2,
    (C1_integer_roundtrip.2.2.2 2000 3000 4000 (by decide) (by decide)
      (by decide)).1,
    (C1_integer_roundtrip.2.2.2 2000 3000 4000 (by decide) (by decide)
      (by decide)).2⟩

/-- C8: the maximum axis coordinates equal `2 ^ (W / D) - 1` (integer
division), concretely `0xFFFF` / `0xFFFFFFFF` in 2D and `0x3FF` / `0x1FFFFF`
in 3D. -/
theorem C8_max_coords :
    max_2d_morton_coord32 = 2 ^ (32 / 2) - 1 ∧
    max_2d_morton_coord32 = 0xFFFF ∧
    max_2d_morton_coord64 = 2 ^ (64 / 2) - 1 ∧
    max_2d_morton_coord64 = 0xFFFFFFFF ∧
    max_3d_morton_coord32 = 2 ^ (32 / 3) - 1 ∧
    max_3d_morton_coord32 = 0x3FF ∧
    max_3d_morton_coord64 = 2 ^ (64 / 3) - 1 ∧
    max_3d_morton_coord64 = 0x1FFFFF := by
  decide

/-- C4: integer `mortonEncode` boundary values, for both widths and on both
paths: 2D `encode(0,0)=0`, `encode(1,0)=1`, `encode(0,1)=2`, `encode(1,1)=3`,
`encode(2,2)=12`, `encode(3,3)=15`; 3D `encode(0,0,0)=0`, `encode(1,1,1)=7`,
`encode(2,2,2)=56`, `encode(3,3,3)=63`. -/
theorem C4_boundary_values :
    (mortonEncode32_2 0 0 = 0 ∧ mortonEncode32_2 1 0 = 1 ∧
      mortonEncode32_2 0 1 = 2 ∧ mortonEncode32_2 1 1 = 3 ∧
      mortonEncode32_2 2 2 = 12 ∧ mortonEncode32_2 3 3 = 15) ∧
    (mortonEncode64_2 0 0 = 0 ∧ mortonEncode64_2 1 0 = 1 ∧
      mortonEncode64_2 0 1 = 2 ∧ mortonEncode64_2 1 1 = 3 ∧
      mortonEncode64_2 2 2 = 12 ∧ mortonEncode64_2 3 3 = 15) ∧
    (mortonEncode32_3 0 0 0 = 0 ∧ mortonEncode32_3 1 1 1 = 7 ∧
      mortonEncode32_3 2 2 2 = 56 ∧ mortonEncode32_3 3 3 3 = 63) ∧
    (mortonEncode64_3 0 0 0 = 0 ∧ mortonEncode64_3 1 1 1 = 7 ∧
      mortonEncode64_3 2 2 2 = 56 ∧ mortonEncode64_3 3 3 3 = 63) ∧
    (mortonEncodeBmi32_2 0 0 = 0 ∧ mortonEncodeBmi32_2 1 0 = 1 ∧
      mortonEncodeBmi32_2 0 1 = 2 ∧ mortonEncodeBmi32_2 1 1 = 3 ∧
      mortonEncodeBmi32_2 2 2 = 12 ∧ mortonEncodeBmi32_2 3 3 = 15) ∧
    (mortonEncodeBmi64_2 0 0 = 0 ∧ mortonEncodeBmi64_2 1 0 = 1 ∧
      mortonEncodeBmi64_2 0 1 = 2 ∧ mortonEncodeBmi64_2 1 1 = 3 ∧
      mortonEncodeBmi64_2 2 2 = 12 ∧ mortonEncodeBmi64_2 3 3 = 15) ∧
    (mortonEncodeBmi32_3 0 0 0 = 0 ∧ mortonEncodeBmi32_3 1 1 1 = 7 ∧
      mortonEncodeBmi32_3 2 2 2 = 56 ∧ mortonEncodeBmi32_3 3 3 3 = 63) ∧
    (mortonEncodeBmi64_3 0 0 0 = 0 ∧ mortonEncodeBmi64_3 1 1 1 = 7 ∧
      mortonEncodeBmi64_3 2 2 2 = 56 ∧ mortonEncodeBmi64_3 3 3 3 = 63) := by
  decide

/-- C3 fails as stated: for `W = 32`, the three 3D BMI mask constants do not
OR to the low 30 bits — their union is all 32 bits. -/
theorem C3_counterexample :
    ¬(bmi_3d_x_mask32 ||| bmi_3d_y_mask32 ||| bmi_3d_z_mask32 =
      2 ^ 30 - 1) := by
  decide

/-- C3 amended: all axis-mask families are pairwise disjoint; the 2D unions
cover all `W` bits; the 3D emulation-path masks OR to exactly the low
`3 * (W / 3)` bits; but the 3D `bmi_*` constants OR to all `W` bits (the
truncated 64-bit patterns tile the whole register). -/
theorem C3_mask_partition :
    (bmi_2d_x_mask32 &&& bmi_2d_y_mask32 = 0 ∧
      bmi_2d_x_mask32 ||| bmi_2d_y_mask32 = 2 ^ 32 - 1) ∧
    (bmi_2d_x_mask64 &&& bmi_2d_y_mask64 = 0 ∧
      bmi_2d_x_mask64 ||| bmi_2d_y_mask64 = 2 ^ 64 - 1) ∧
    (bmi_3d_x_mask32 &&& bmi_3d_y_mask32 = 0 ∧
      bmi_3d_x_mask32 &&& bmi_3d_z_mask32 = 0 ∧
      bmi_3d_y_mask32 &&& bmi_3d_z_mask32 = 0 ∧
      bmi_3d_x_mask32 ||| bmi_3d_y_mask32 ||| bmi_3d_z_mask32 = 2 ^ 32 - 1) ∧
    (bmi_3d_x_mask64 &&& bmi_3d_y_mask64 = 0 ∧
      bmi_3d_x_mask64 &&& bmi_3d_z_mask64 = 0 ∧
      bmi_3d_y_mask64 &&& bmi_3d_z_mask64 = 0 ∧
      bmi_3d_x_mask64 ||| bmi_3d_y_mask64 ||| bmi_3d_z_mask64 = 2 ^ 64 - 1) ∧
    (emu_2d_x_mask32 &&& emu_2d_y_mask32 = 0 ∧
      emu_2d_x_mask32 ||| emu_2d_y_mask32 = 2 ^ 32 - 1) ∧
    (emu_2d_x_mask64 &&& emu_2d_y_mask64 = 0 ∧
      emu_2d_x_mask64 ||| emu_2d_y_mask64 = 2 ^ 64 - 1) ∧
    (emu_3d_x_mask32 &&& emu_3d_y_mask32 = 0 ∧
      emu_3d_x_mask32 &&& emu_3d_z_mask32 = 0 ∧
      emu_3d_y_mask32 &&& emu_3d_z_mask32 = 0 ∧
      emu_3d_x_mask32 ||| emu_3d_y_mask32 ||| emu_3d_z_mask32 =
        2 ^ (3 * (32 / 3)) - 1) ∧
    (emu_3d_x_mask64 &&& emu_3d_y_mask64 = 0 ∧
      emu_3d_x_mask64 &&& emu_3d_z_mask64 = 0 ∧
      emu_3d_y_mask64 &&& emu_3d_z_mask64 = 0 ∧
      emu_3d_x_mask64 ||| emu_3d_y_mask64 ||| emu_3d_z_mask64 =
        2 ^ (3 * (64 / 3)) - 1) := by
  decide

/-- C7 fails as stated: the 3D floating-point `mortonEncode` overload has no
`static_assert`, so the instantiation `U = uint64_t, T = float` is not
rejected at compile time. -/
theorem C7_counterexample :
    ¬(mortonEncode3FloatCompiles UIntTy.u64 FloatTy.f32 = false) := by
  decide

/-- C7 amended: only the 2D floating-point overload rejects the combination
`U = uint64_t, T = float` (and rejects exactly that combination); the 3D
overload accepts every combination. -/
theorem C7_float_compile_rejection :
    mortonEncode2FloatCompiles UIntTy.u64 FloatTy.f32 = false ∧
    (∀ u t, mortonEncode2FloatCompiles u t = false ↔
      (u = UIntTy.u64 ∧ t = FloatTy.f32)) ∧
    (∀ u t, mortonEncode3FloatCompiles u t = true) := by
  decide

/-- C9: on the emulation path, every decoded coordinate is within the encode
precondition range: at most the maximum Morton coordinate for its width and
dimensionality — with no precondition at all on the decoded code. -/
theorem C9_decode_in_range :
    ∀ m : Nat,
      (mortonDecode32_2 m).1 ≤ max_2d_morton_coord32 ∧
      (mortonDecode32_2 m).2 ≤ max_2d_morton_coord32 ∧
      (mortonDecode64_2 m).1 ≤ max_2d_morton_coord64 ∧
      (mortonDecode64_2 m).2 ≤ max_2d_morton_coord64 ∧
      (mortonDecode32_3 m).1 ≤ max_3d_morton_coord32 ∧
      (mortonDecode32_3 m).2.1 ≤ max_3d_morton_coord32 ∧
      (mortonDecode32_3 m).2.2 ≤ max_3d_morton_coord32 ∧
      (mortonDecode64_3 m).1 ≤ max_3d_morton_coord64 ∧
      (mortonDecode64_3 m).2.1 ≤ max_3d_morton_coord64 ∧
      (mortonDecode64_3 m).2.2 ≤ max_3d_morton_coord64 := by
  intro m
  simp only [mortonDecode32_2, mortonDecode64_2, mortonDecode32_3,
    mortonDecode64_3, max_2d_morton_coord32_eq, max_2d_morton_coord64_eq,
    max_3d_morton_coord32_eq, max_3d_morton_coord64_eq]
  exact ⟨pext0x55555555_le _, pext0x55555555_le _,
    pext0x5555555555555555_le _, pext0x5555555555555555_le _,
    pext0x92492492_le _, pext0x92492492_le _, pext0x92492492_le _,
    pext0x9249249249249249_le _, pext0x9249249249249249_le _,
    pext0x9249249249249249_le _⟩

theorem rev_rt32 {m : Nat} (hm : m < 2 ^ 32) :
    mortonEncode32_2 (mortonDecode32_2 m).1 (mortonDecode32_2 m).2 = m := by
  have hx : (mortonDecode32_2 m).1 < 2 ^ 16 := by
    simp only [mortonDecode32_2]
    have h := pext0x55555555_le m
    omega
  have hy : (mortonDecode32_2 m).2 < 2 ^ 16 := by
    simp only [mortonDecode32_2]
    have h := pext0x55555555_le (m >>> 1)
    omega
  rw [mortonEncode32_2_generic hx hy]
  simp only [mortonDecode32_2_generic hm]
  rw [pdep_pext, pdep_pext,
    Nat.mod_eq_of_lt (lt_of_le_of_lt Nat.and_le_left hm),
    Nat.mod_eq_of_lt (lt_of_le_of_lt Nat.and_le_left hm),
    ← Nat.and_or_distrib_left,
    show (0x55555555 ||| 0xAAAAAAAA : Nat) = 0xFFFFFFFF by decide,
    show (0xFFFFFFFF : Nat) = 2 ^ 32 - 1 by norm_num,
    Nat.and_pow_two_sub_one_eq_mod, Nat.mod_eq_of_lt hm]

theorem rev_rt64 {m : Nat} (hm : m < 2 ^ 64) :
    mortonEncode64_2 (mortonDecode64_2 m).1 (mortonDecode64_2 m).2 = m := by
  have hx : (mortonDecode64_2 m).1 < 2 ^ 32 := by
    simp only [mortonDecode64_2]
    have h := pext0x5555555555555555_le m
    omega
  have hy : (mortonDecode64_2 m).2 < 2 ^ 32 := by
    simp only [mortonDecode64_2]
    have h := pext0x5555555555555555_le (m >>> 1)
    omega
  rw [mortonEncode64_2_generic hx hy]
  simp only [mortonDecode64_2_generic hm]
  rw [pdep_pext, pdep_pext,
    Nat.mod_eq_of_lt (lt_of_le_of_lt Nat.and_le_left hm),
    Nat.mod_eq_of_lt (lt_of_le_of_lt Nat.and_le_left hm),
    ← Nat.and_or_distrib_left,
    show (0x5555555555555555 ||| 0xAAAAAAAAAAAAAAAA : Nat) =
      0xFFFFFFFFFFFFFFFF by decide,
    show (0xFFFFFFFFFFFFFFFF : Nat) = 2 ^ 64 - 1 by norm_num,
    Nat.and_pow_two_sub_one_eq_mod, Nat.mod_eq_of_lt hm]

/-- C10: the 2D emulation codec also roundtrips in the reverse direction,
with no restriction beyond the register width: decoding any `W`-bit value and
re-encoding the two coordinates reproduces the value, because the two 2D
axis masks together cover all `W` bits. -/
theorem C10_reverse_roundtrip_2d :
    (∀ m, m < 2 ^ 32 →
      mortonEncode32_2 (mortonDecode32_2 m).1 (mortonDecode32_2 m).2 = m) ∧
    (∀ m, m < 2 ^ 64 →
      mortonEncode64_2 (mortonDecode64_2 m).1 (mortonDecode64_2 m).2 = m) :=
  ⟨fun _ hm => rev_rt32 hm, fun _ hm => rev_rt64 hm⟩

/-- Witness for C10 at concrete codes. -/
theorem C10_reverse_roundtrip_2d_witness :
    mortonEncode32_2 (mortonDecode32_2 0xDEADBEEF).1
      (mortonDecode32_2 0xDEADBEEF).2 = 0xDEADBEEF ∧
    mortonEncode64_2 (mortonDecode64_2 0x0123456789ABCDEF).1
      (mortonDecode64_2 0x0123456789ABCDEF).2 = 0x0123456789ABCDEF :=
  ⟨C10_reverse_roundtrip_2d.1 0xDEADBEEF (by decide),
    C10_reverse_roundtrip_2d.2 0x0123456789ABCDEF (by decide)⟩

/-- C5 fails as stated for the BMI2 path: hardware 3D decode of `2^30`
(a code with only a bit at or above `3 * (32 / 3) = 30` set) differs from the
decode of the code with those bits cleared — mask `bmi_3d_x_mask32` contains
bit 30, which becomes bit 10 of x. -/
theorem C5_counterexample :
    ¬(mortonDecodeBmi32_3 (2 ^ 30) = mortonDecodeBmi32_3 (2 ^ 30 % 2 ^ 30)) := by
  decide

/-- C5 amended: on the portable emulation path the claim holds — 3D decode
is insensitive to the code bits at positions `3 * (W / 3)` and above (they
are silently discarded), for every `W`-bit code; the BMI2 path instead maps
those bits into coordinate bits (see the counterexample). -/
theorem C5_high_bits_discarded :
    (∀ m, m < 2 ^ 32 → mortonDecode32_3 m = mortonDecode32_3 (m % 2 ^ 30)) ∧
    (∀ m, m < 2 ^ 64 → mortonDecode64_3 m = mortonDecode64_3 (m % 2 ^ 63)) := by
  constructor
  · intro m hm
    have hm2 : m % 2 ^ 30 < 2 ^ 32 := by omega
    have hc : ∀ c : Nat, c < 2 ^ 30 →
        pext 32 (m % 2 ^ 30) c = pext 32 m c := fun c hc => by
      rw [← pext_and_mask 32 (m % 2 ^ 30) c, mod_and_of_lt hc, pext_and_mask]
    rw [mortonDecode32_3_generic hm, mortonDecode32_3_generic hm2,
      hc 0x09249249 (by norm_num), hc 0x12492492 (by norm_num),
      hc 0x24924924 (by norm_num)]
  · intro m hm
    have hm2 : m % 2 ^ 63 < 2 ^ 64 := by omega
    have hc : ∀ c : Nat, c < 2 ^ 63 →
        pext 64 (m % 2 ^ 63) c = pext 64 m c := fun c hc => by
      rw [← pext_and_mask 64 (m % 2 ^ 63) c, mod_and_of_lt hc, pext_and_mask]
    rw [mortonDecode64_3_generic hm, mortonDecode64_3_generic hm2,
      hc 0x1249249249249249 (by norm_num), hc 0x2492492492492492 (by norm_num),
      hc 0x4924924924924924 (by norm_num)]

/-- Witness for C5 at concrete codes with high bits set. -/
theorem C5_high_bits_discarded_witness :
    mortonDecode32_3 0xC0000001 = mortonDecode32_3 (0xC0000001 % 2 ^ 30) ∧
    mortonDecode64_3 0x8000000000000005 =
      mortonDecode64_3 (0x8000000000000005 % 2 ^ 63) :=
  ⟨C5_high_bits_discarded.1 0xC0000001 (by decide),
    C5_high_bits_discarded.2 0x8000000000000005 (by decide)⟩

-- Mask-agreement lemmas: the extra high mask bit of a BMI 3D constant is
-- invisible when the source (for pdep) or the code (for pext) has no bits
-- there.

theorem pdep_agree_32x {x : Nat} (hx : x < 2 ^ 10) :
    pdep 32 x 0x49249249 = pdep 32 x 0x09249249 := by
  have hbase : ∀ j, j < 10 →
      pdep 32 (2 ^ j) 0x49249249 = pdep 32 (2 ^ j) 0x09249249 := by decide
  exact linEq (f := fun v => pdep 32 v 0x49249249)
    (g := fun v => pdep 32 v 0x09249249) (fun a b => pdep_xor 32 a b _)
    (fun a b => pdep_xor 32 a b _) 10 hbase x hx

theorem pdep_agree_32y {x : Nat} (hx : x < 2 ^ 10) :
    pdep 32 x 0x92492492 = pdep 32 x 0x12492492 := by
  have hbase : ∀ j, j < 10 →
      pdep 32 (2 ^ j) 0x92492492 = pdep 32 (2 ^ j) 0x12492492 := by decide
  exact linEq (f := fun v => pdep 32 v 0x92492492)
    (g := fun v => pdep 32 v 0x12492492) (fun a b => pdep_xor 32 a b _)
    (fun a b => pdep_xor 32 a b _) 10 hbase x hx

theorem pdep_agree_64x {x : Nat} (hx : x < 2 ^ 21) :
    pdep 64 x 0x9249249249249249 = pdep 64 x 0x1249249249249249 := by
  have hbase : ∀ j, j < 21 →
      pdep 64 (2 ^ j) 0x9249249249249249 =
        pdep 64 (2 ^ j) 0x1249249249249249 := by decide
  exact linEq (f := fun v => pdep 64 v 0x9249249249249249)
    (g := fun v => pdep 64 v 0x1249249249249249) (fun a b => pdep_xor 64 a b _)
    (fun a b => pdep_xor 64 a b _) 21 hbase x hx

theorem pext_agree_32x {m : Nat} (hm : m < 2 ^ 30) :
    pext 32 m 0x49249249 = pext 32 m 0x09249249 := by
  have hbase : ∀ j, j < 30 →
      pext 32 (2 ^ j) 0x49249249 = pext 32 (2 ^ j) 0x09249249 := by decide
  exact linEq (f := fun v => pext 32 v 0x49249249)
    (g := fun v => pext 32 v 0x09249249) (fun a b => pext_xor 32 a b _)
    (fun a b => pext_xor 32 a b _) 30 hbase m hm

theorem pext_agree_32y {m : Nat} (hm : m < 2 ^ 30) :
    pext 32 m 0x92492492 = pext 32 m 0x12492492 := by
  have hbase : ∀ j, j < 30 →
      pext 32 (2 ^ j) 0x92492492 = pext 32 (2 ^ j) 0x12492492 := by decide
  exact linEq (f := fun v => pext 32 v 0x92492492)
    (g := fun v => pext 32 v 0x12492492) (fun a b => pext_xor 32 a b _)
    (fun a b => pext_xor 32 a b _) 30 hbase m hm

theorem pext_agree_64x {m : Nat} (hm : m < 2 ^ 63) :
    pext 64 m 0x9249249249249249 = pext 64 m 0x1249249249249249 := by
  have hbase : ∀ j, j < 63 →
      pext 64 (2 ^ j) 0x9249249249249249 =
        pext 64 (2 ^ j) 0x1249249249249249 := by decide
  exact linEq (f := fun v => pext 64 v 0x9249249249249249)
    (g := fun v => pext 64 v 0x1249249249249249) (fun a b => pext_xor 64 a b _)
    (fun a b => pext_xor 64 a b _) 63 hbase m hm

/-- C2 fails as stated: 3D decode is not bit-identical between the paths for
every code value — at `m = 2^30` (32-bit) the hardware path extracts mask bit
30 into x (giving `x = 1024`) while the emulation path ignores it. -/
theorem C2_counterexample :
    ¬(mortonDecodeBmi32_3 (2 ^ 30) = mortonDecode32_3 (2 ^ 30)) := by
  decide

/-- C2 amended: the hardware and emulation paths are bit-identical on all
encodes within the coordinate precondition and on all 2D decodes of any
register value; 3D decodes agree exactly on codes below `2 ^ (3 * (W / 3))`
(no bits in the high `W mod 3` positions), and differ above (see the
counterexample). -/
theorem C2_hw_emu_equivalence :
    (∀ x y, x ≤ max_2d_morton_coord32 → y ≤ max_2d_morton_coord32 →
      mortonEncodeBmi32_2 x y = mortonEncode32_2 x y) ∧
    (∀ x y, x ≤ max_2d_morton_coord64 → y ≤ max_2d_morton_coord64 →
      mortonEncodeBmi64_2 x y = mortonEncode64_2 x y) ∧
    (∀ x y z, x ≤ max_3d_morton_coord32 → y ≤ max_3d_morton_coord32 →
      z ≤ max_3d_morton_coord32 →
      mortonEncodeBmi32_3 x y z = mortonEncode32_3 x y z) ∧
    (∀ x y z, x ≤ max_3d_morton_coord64 → y ≤ max_3d_morton_coord64 →
      z ≤ max_3d_morton_coord64 →
      mortonEncodeBmi64_3 x y z = mortonEncode64_3 x y z) ∧
    (∀ m, m < 2 ^ 32 → mortonDecodeBmi32_2 m = mortonDecode32_2 m) ∧
    (∀ m, m < 2 ^ 64 → mortonDecodeBmi64_2 m = mortonDecode64_2 m) ∧
    (∀ m, m < 2 ^ 30 → mortonDecodeBmi32_3 m = mortonDecode32_3 m) ∧
    (∀ m, m < 2 ^ 63 → mortonDecodeBmi64_3 m = mortonDecode64_3 m) := by
  refine ⟨fun x y hx hy => ?_, fun x y hx hy => ?_,
    fun x y z hx hy hz => ?_, fun x y z hx hy hz => ?_,
    fun m hm => ?_, fun m hm => ?_, fun m hm => ?_, fun m hm => ?_⟩
  · rw [max_2d_morton_coord32_eq] at hx hy
    rw [mortonEncode32_2_generic (by omega) (by omega)]
    simp only [mortonEncodeBmi32_2, bmi_2d_x_mask32_eq, bmi_2d_y_mask32_eq]
  · rw [max_2d_morton_coord64_eq] at hx hy
    rw [mortonEncode64_2_generic (by omega) (by omega)]
    simp only [mortonEncodeBmi64_2, bmi_2d_x_mask64, bmi_2d_y_mask64]
  · rw [max_3d_morton_coord32_eq] at hx hy hz
    rw [mortonEncode32_3_generic (by omega) (by omega) (by omega)]
    simp only [mortonEncodeBmi32_3, bmi_3d_x_mask32_eq, bmi_3d_y_mask32_eq,
      bmi_3d_z_mask32_eq]
    rw [pdep_agree_32x (by omega), pdep_agree_32y (by omega)]
  · rw [max_3d_morton_coord64_eq] at hx hy hz
    rw [mortonEncode64_3_generic (by omega) (by omega) (by omega)]
    simp only [mortonEncodeBmi64_3, bmi_3d_x_mask64, bmi_3d_y_mask64,
      bmi_3d_z_mask64]
    rw [pdep_agree_64x (by omega)]
  · rw [mortonDecode32_2_generic hm]
    simp only [mortonDecodeBmi32_2, bmi_2d_x_mask32_eq, bmi_2d_y_mask32_eq]
  · rw [mortonDecode64_2_generic hm]
    simp only [mortonDecodeBmi64_2, bmi_2d_x_mask64, bmi_2d_y_mask64]
  · rw [mortonDecode32_3_generic (by omega)]
    simp only [mortonDecodeBmi32_3, bmi_3d_x_mask32_eq, bmi_3d_y_mask32_eq,
      bmi_3d_z_mask32_eq]
    rw [pext_agree_32x hm, pext_agree_32y hm]
  · rw [mortonDecode64_3_generic (by omega)]
    simp only [mortonDecodeBmi64_3, bmi_3d_x_mask64, bmi_3d_y_mask64,
      bmi_3d_z_mask64]
    rw [pext_agree_64x hm]

/-- Witness for C2 at concrete inputs. -/
theorem C2_hw_emu_equivalence_witness :
    mortonEncodeBmi32_2 17 42 = mortonEncode32_2 17 42 ∧
    mortonEncodeBmi64_2 100000 65537 = mortonEncode64_2 100000 65537 ∧
    mortonEncodeBmi32_3 5 6 7 = mortonEncode32_3 5 6 7 ∧
    mortonEncodeBmi64_3 1000 2000 3000 = mortonEncode64_3 1000 2000 3000 ∧
    mortonDecodeBmi32_2 0x12345678 = mortonDecode32_2 0x12345678 ∧
    mortonDecodeBmi64_2 0x123456789ABCDEF0 =
      mortonDecode64_2 0x123456789ABCDEF0 ∧
    mortonDecodeBmi32_3 0x12345678 = mortonDecode32_3 0x12345678 ∧
    mortonDecodeBmi64_3 0x123456789ABCDEF0 =
      mortonDecode64_3 0x123456789ABCDEF0 :=
  ⟨C2_hw_emu_equivalence.1 17 42 (by decide) (by decide),
    C2_hw_emu_equivalence.2.1 100000 65537 (by decide) (by decide),
    C2_hw_emu_equivalence.2.2.1 5 6 7 (by decide) (by decide) (by decide),
    C2_hw_emu_equivalence.2.2.2.1 1000 2000 3000 (by decide) (by decide)
      (by decide),
    C2_hw_emu_equivalence.2.2.2.2.1 0x12345678 (by decide),
    C2_hw_emu_equivalence.2.2.2.2.2.1 0x123456789ABCDEF0 (by decide),
    C2_hw_emu_equivalence.2.2.2.2.2.2.1 0x12345678 (by decide),
    C2_hw_emu_equivalence.2.2.2.2.2.2.2 0x123456789ABCDEF0 (by decide)⟩
